import Mathlib

/-!
Verification development for the layout and rendering engine of the
tech-infographic-generator repository (`backend/renderer/`).

The Python source is shallowly embedded: machine integers become `Int`
(Python `//` becomes `Int.fdiv`, which floors like Python), Python dicts
become insertion-ordered association lists, and float-valued library
calls (`math.sqrt`, `math.cos`, `math.sin`, PIL text metrics, the seeded
`random` stream) become explicit oracle parameters over `ℚ` so that every
definition stays computable.
-/

namespace TIG

/-- A bounding box `(x, y, w, h)` as produced by the layout strategies in
`backend/renderer/layout.py`. -/
structure Box where
  x : Int
  y : Int
  w : Int
  h : Int
deriving DecidableEq, Repr

/-- A position map `{node_id: (x, y, w, h)}`: a Python dict embedded as an
insertion-ordered association list with unique keys. -/
abbrev PosMap := List (String × Box)

/-- Python dict assignment `d[k] = v`: overwrite in place if the key exists
(keeping its position), else append at the end. -/
def dinsert {β : Type} (k : String) (v : β) : List (String × β) → List (String × β)
  | [] => [(k, v)]
  | (k', v') :: rest => if k = k' then (k, v) :: rest else (k', v') :: dinsert k v rest

/-- Python dict lookup `d.get(k)`: first (unique) matching key. -/
def dlookup {β : Type} (k : String) : List (String × β) → Option β
  | [] => none
  | (k', v) :: rest => if k = k' then some v else dlookup k rest

/-- Python `k in d`. -/
def dmem {β : Type} (k : String) (d : List (String × β)) : Bool :=
  (dlookup k d).isSome

/-- Python `d.setdefault(k, []).append(v)` used for grouping dictionaries:
append to the existing entry's list, else add a new entry at the end. -/
def dappend {β : Type} (k : Option String) (v : β) :
    List (Option String × List β) → List (Option String × List β)
  | [] => [(k, [v])]
  | (k', vs) :: rest =>
    if k = k' then (k', vs ++ [v]) :: rest else (k', vs) :: dappend k v rest

/-- Python `max(xs)` over a non-empty list of ints (the sources only call it
on provably non-empty collections). -/
def listMax : List Int → Int
  | [] => 0
  | x :: xs => xs.foldl max x

/-- Python `min(xs)` over a non-empty list of rationals. -/
def listMinQ : List ℚ → ℚ
  | [] => 0
  | x :: xs => xs.foldl min x

/-- Python `max(xs)` over a non-empty list of rationals. -/
def listMaxQ : List ℚ → ℚ
  | [] => 0
  | x :: xs => xs.foldl max x

/-- Python `int(q)` on a float value modelled as a rational: truncation
toward zero (`Int.tdiv` truncates toward zero and `q.den` is positive). -/
def pyInt (q : ℚ) : Int :=
  q.num.tdiv (q.den : Int)

/-- Ceiling of a rational, written with `Int.fdiv` so that it reduces in
the kernel: `⌈q⌉ = -⌊-q⌋`. -/
def ratCeil (q : ℚ) : Int :=
  -((-q.num).fdiv (q.den : Int))

/-!
Overlap resolution (`resolve_overlaps`, layout.py lines 777-843)
-/

/-- The padded-intersection test of `resolve_overlaps`: with each box grown
by `padding` on every side, `ax1 < bx2 and ax2 > bx1 and ay1 < by2 and
ay2 > by1`. -/
def padOverlap (padding : Int) (a b : Box) : Bool :=
  let ax1 := a.x - padding
  let ay1 := a.y - padding
  let ax2 := a.x + a.w + padding
  let ay2 := a.y + a.h + padding
  let bx1 := b.x - padding
  let by1 := b.y - padding
  let bx2 := b.x + b.w + padding
  let by2 := b.y + b.h + padding
  decide (ax1 < bx2 ∧ ax2 > bx1 ∧ ay1 < by2 ∧ ay2 > by1)

/-- The clamping step of `resolve_overlaps`:
`a[0] = max(10, min(a[0], canvas_w - a[2] - 10))` and likewise for `y`. -/
def clampBox (canvas_w canvas_h : Int) (b : Box) : Box :=
  { b with
    x := max 10 (min b.x (canvas_w - b.w - 10)),
    y := max 10 (min b.y (canvas_h - b.h - 10)) }

/-- One inner-pair step of `resolve_overlaps`: examine the boxes at list
positions `i < j` (the dict iterates its keys in insertion order, so
`pos[ids[i]]` is the `i`-th entry); if their padded boxes overlap, push them
apart along the axis of lesser overlap and clamp both to the canvas. The
Boolean tracks the `moved` flag. -/
def pairStep (padding canvas_w canvas_h : Int)
    (st : PosMap × Bool) (ij : Nat × Nat) : PosMap × Bool :=
  let pos := st.1
  match pos[ij.1]?, pos[ij.2]? with
  | some (ka, a), some (kb, b) =>
    if padOverlap padding a b then
      let ax1 := a.x - padding
      let ay1 := a.y - padding
      let ax2 := a.x + a.w + padding
      let ay2 := a.y + a.h + padding
      let bx1 := b.x - padding
      let by1 := b.y - padding
      let bx2 := b.x + b.w + padding
      let by2 := b.y + b.h + padding
      let overlap_x := min (ax2 - bx1) (bx2 - ax1)
      let overlap_y := min (ay2 - by1) (by2 - ay1)
      let moved2 :=
        if overlap_x < overlap_y then
          let shift := overlap_x.fdiv 2 + 1
          if a.x < b.x then ({ a with x := a.x - shift }, { b with x := b.x + shift })
          else ({ a with x := a.x + shift }, { b with x := b.x - shift })
        else
          let shift := overlap_y.fdiv 2 + 1
          if a.y < b.y then ({ a with y := a.y - shift }, { b with y := b.y + shift })
          else ({ a with y := a.y + shift }, { b with y := b.y - shift })
      let a' := clampBox canvas_w canvas_h moved2.1
      let b' := clampBox canvas_w canvas_h moved2.2
      ((pos.set ij.1 (ka, a')).set ij.2 (kb, b'), true)
    else st
  | _, _ => st

/-- The ordered list of index pairs `i < j` scanned by the two nested `for`
loops of `resolve_overlaps`. -/
def pairList (n : Nat) : List (Nat × Nat) :=
  (List.range n).flatMap fun i =>
    ((List.range n).filter fun j => i < j).map fun j => (i, j)

/-- One full pass of the `for i / for j` double loop, starting from
`moved = False`. -/
def resolvePass (padding canvas_w canvas_h : Int) (n : Nat) (pos : PosMap) :
    PosMap × Bool :=
  (pairList n).foldl (pairStep padding canvas_w canvas_h) (pos, false)

/-- The `for _ in range(max_iterations)` loop: run passes until a pass moves
nothing (`if not moved: break`) or the iteration budget runs out. -/
def resolveLoop (padding canvas_w canvas_h : Int) (n : Nat) :
    Nat → PosMap → PosMap
  | 0, pos => pos
  | fuel + 1, pos =>
    let pass := resolvePass padding canvas_w canvas_h n pos
    if pass.2 then resolveLoop padding canvas_w canvas_h n fuel pass.1 else pass.1

/-- `resolve_overlaps(positions, padding=20, max_iterations=50, canvas_w=1400,
canvas_h=900)`: iteratively push overlapping padded boxes apart along the
axis of least overlap, clamping to the canvas; return early on a pass with
no movement. Boxes with fewer than two entries are returned unchanged. -/
def resolve_overlaps (positions : PosMap) (padding : Int) (max_iterations : Nat)
    (canvas_w canvas_h : Int) : PosMap :=
  let n := positions.length
  if n < 2 then positions
  else resolveLoop padding canvas_w canvas_h n max_iterations positions

/-!
Data model (`backend/models/infographic.py`)
-/

/-- The `Node` pydantic model. Enum-valued fields (`icon`, `shape`) are kept
as their string values. -/
structure Node where
  id : String
  label : String
  description : Option String
  icon : Option String
  shape : String
  color : Option String
  layer : Option Int
  group : Option String
  zone : Option String
  size : Option String
deriving DecidableEq, Repr

/-- The `Connection` pydantic model; `style` is the `ConnectionStyle` string
value. -/
structure Conn where
  from_node : String
  to_node : String
  label : Option String
  style : String
deriving DecidableEq, Repr

/-- Python falsiness of an optional string: `not s` is true for `None` and
for the empty string. -/
def pyFalsy : Option String → Bool
  | none => true
  | some s => s = ""

/-- Python `a or b` on two optional strings (used for `node.zone or
node.group`): the left value unless it is falsy. -/
def pyOr (a b : Option String) : Option String :=
  if pyFalsy a then b else a

/-!
Typography (`backend/renderer/typography.py`)

PIL text metrics are not available here, so `wrap_text` is parameterized by
two oracles for the font in use: `wFn s` models
`draw.textbbox((0,0), s, font)[2] - draw.textbbox(...)[0]` (the width used
for word-level fitting) and `w2Fn s` models `draw.textbbox((0,0), s,
font)[2]` (the raw right edge used in the hyphenation loop, line 87 of the
source). All theorems hold for arbitrary oracles.
-/

/-- Whitespace recognized by Python `str.split()` with no argument. -/
def pyIsSpace (c : Char) : Bool :=
  c = ' ' ∨ c = '\t' ∨ c = '\n' ∨ c = '\r' ∨ c = '\x0b' ∨ c = '\x0c'

/-- Accumulator form of Python `str.split()`: `cur` is the reversed current
word. -/
def splitAux : List Char → List Char → List (List Char)
  | cur, [] => if cur = [] then [] else [cur.reverse]
  | cur, c :: cs =>
    if pyIsSpace c then
      if cur = [] then splitAux [] cs else cur.reverse :: splitAux [] cs
    else splitAux (c :: cur) cs

/-- Python `text.split()`: split on runs of whitespace, dropping empties. -/
def pySplit (s : String) : List String :=
  (splitAux [] s.toList).map fun cs => String.mk cs

/-- One step of the hyphenation loop of `wrap_text` (character-level break
for a word wider than `max_width`): state is `(lines, part)`. -/
def wrapChar (w2Fn : String → Int) (max_width : Int)
    (st : List String × String) (c : Char) : List String × String :=
  let lines := st.1
  let part := st.2
  let test_part := part.push c ++ "-"
  if w2Fn test_part > max_width ∧ part ≠ "" then (lines ++ [part ++ "-"], String.singleton c)
  else (lines, part.push c)

/-- One step of the word loop of `wrap_text`: state is `(lines, current)`. -/
def wrapWord (wFn w2Fn : String → Int) (max_width : Int)
    (st : List String × String) (word : String) : List String × String :=
  let lines := st.1
  let current := st.2
  let test := if current = "" then word else current ++ " " ++ word
  if wFn test ≤ max_width then (lines, test)
  else
    let lines1 := if current = "" then lines else lines ++ [current]
    let word_w := wFn word
    if word_w > max_width then word.toList.foldl (wrapChar w2Fn max_width) (lines1, "")
    else (lines1, word)

/-- `wrap_text(draw, text, font, max_width)`: greedy word wrap with
hyphenated breaking of over-wide words. -/
def wrap_text (wFn w2Fn : String → Int) (text : String) (max_width : Int) :
    List String :=
  if max_width < 10 then [text]
  else
    let st := (pySplit text).foldl (wrapWord wFn w2Fn max_width) ([], "")
    if st.2 = "" then st.1 else st.1 ++ [st.2]

/-!
Content measurement (`measure_node_content_height`, layout.py lines 19-87)
-/

/-- The variant-specific fixed allowance `header_h + icon_h + label_h +
padding` of `measure_node_content_height`. -/
def baseAllowance (has_icon is_header_style is_pipeline : Bool) : Int :=
  let header_h : Int := if is_pipeline then 20 else if is_header_style then 34 else 18
  let icon_h : Int :=
    if is_pipeline then (if has_icon then 50 else 15)
    else if is_header_style then (if has_icon then 28 else 0)
    else (if has_icon then 34 else 0)
  let label_h : Int := if is_pipeline then 24 else if is_header_style then 22 else 26
  let padding : Int := if is_pipeline then 24 else if is_header_style then 16 else 12
  header_h + icon_h + label_h + padding

/-- `measure_node_content_height(description, card_w, has_icon, min_h,
max_h, is_header_style, is_pipeline)`. The line heights `int(11 * 1.35) =
14` and `int(12 * 1.4) = 16` are the exact values of the source's float
expressions. -/
def measure_node_content_height (wFn w2Fn : String → Int)
    (description : Option String) (card_w : Int) (has_icon : Bool)
    (min_h max_h : Int) (is_header_style is_pipeline : Bool) : Int :=
  let base_h := baseAllowance has_icon is_header_style is_pipeline
  if pyFalsy description then max min_h base_h
  else
    let text_w := card_w - 24
    let line_h : Int := if is_header_style then 14 else 16
    let lines := wrap_text wFn w2Fn (description.getD "") text_w
    let desc_h := (lines.length : Int) * line_h + 6
    let needed := base_h + desc_h
    max min_h (min needed max_h)

/-- `measure_content_heights(nodes, card_w, is_header_style, is_pipeline,
min_h, max_h)`: the per-id height dict. -/
def measure_content_heights (wFn w2Fn : String → Int) (nodes : List Node)
    (card_w : Int) (is_header_style is_pipeline : Bool) (min_h max_h : Int) :
    List (String × Int) :=
  nodes.foldl
    (fun d node =>
      dinsert node.id
        (measure_node_content_height wFn w2Fn node.description card_w
          (node.icon ≠ none) min_h max_h is_header_style is_pipeline) d)
    []

/-!
Layout strategies (`backend/renderer/layout.py`)

Python `//` is `Int.fdiv` (both floor). `math.ceil(n / cols)` for positive
`cols` is `(n + cols - 1).fdiv cols`.
-/

/-- A layer dict as consumed by `layout_layered` (`{"name", "nodes",
"color"}`); only `nodes` is read. -/
structure LayerDict where
  name : Option String
  color : Option String
  nodes : List String
deriving DecidableEq, Repr

/-- A zone dict as consumed by `layout_zone_based`. -/
structure ZoneDict where
  name : Option String
  color : Option String
  nodes : List String
deriving DecidableEq, Repr

/-- An entry of the `zone_rects` list returned by `layout_zone_based`. -/
structure ZoneRect where
  bbox : Box
  name : String
  color : String
deriving DecidableEq, Repr

/-- `layout_flow_horizontal(node_ids, canvas_w, canvas_h, margin=60,
header_h=80, nodes=None)`. -/
def layout_flow_horizontal (wFn w2Fn : String → Int) (node_ids : List String)
    (canvas_w canvas_h margin header_h : Int) (nodes : Option (List Node)) :
    PosMap :=
  if node_ids.length = 0 then []
  else
    let n : Int := node_ids.length
    let usable_w := canvas_w - margin * 2
    let gap := max 65 (min 85 ((usable_w - n * 120).fdiv (max (n - 1) 1)))
    let node_w := min ((usable_w - (n - 1) * gap).fdiv n) 200
    let ns := nodes.getD []
    let node_h0 :=
      if ns ≠ [] then
        listMax ((measure_content_heights wFn w2Fn ns node_w false false 90 280).map (·.2))
      else min 120 (canvas_h - header_h - margin * 2)
    let max_available := canvas_h - header_h - margin * 2
    let node_h := min node_h0 max_available
    let total_w := n * node_w + (n - 1) * gap
    let start_x := margin + (usable_w - total_w).fdiv 2
    let cy := header_h + (canvas_h - header_h - margin).fdiv 2
    node_ids.enum.foldl
      (fun pos (i, nid) =>
        dinsert nid ⟨start_x + i * (node_w + gap), cy - node_h.fdiv 2, node_w, node_h⟩ pos)
      []

/-- `layout_flow_vertical(node_ids, canvas_w, canvas_h, margin=60,
header_h=80)`. -/
def layout_flow_vertical (node_ids : List String)
    (canvas_w canvas_h margin header_h : Int) : PosMap :=
  if node_ids.length = 0 then []
  else
    let n : Int := node_ids.length
    let usable_h := canvas_h - header_h - margin
    let gap : Int := 30
    let node_h := min ((usable_h - (n - 1) * gap).fdiv n) 80
    let node_w := min 220 (canvas_w - margin * 2)
    let cx := canvas_w.fdiv 2
    node_ids.enum.foldl
      (fun pos (i, nid) =>
        dinsert nid ⟨cx - node_w.fdiv 2, header_h + i * (node_h + gap), node_w, node_h⟩ pos)
      []

/-- `layout_grid(node_ids, canvas_w, canvas_h, cols=3, margin=50,
header_h=100, row_gap=40, col_gap=20, footer_h=28, nodes=None)`. Both the
content-aware branch (when `nodes` is a non-empty list) and the
fixed-height fallback are embedded; the proportional down-scale
`int(h * scale)` is computed in exact rational arithmetic. -/
def layout_grid (wFn w2Fn : String → Int) (node_ids : List String)
    (canvas_w canvas_h cols0 margin header_h row_gap col_gap footer_h : Int)
    (nodes : Option (List Node)) : PosMap :=
  if node_ids.length = 0 then []
  else
    let n : Int := node_ids.length
    let cols := min cols0 n
    let rows := (n + cols - 1).fdiv cols
    let usable_w := canvas_w - margin * 2
    let usable_h := canvas_h - header_h - footer_h
    let node_w := (usable_w - (cols - 1) * col_gap).fdiv cols
    let ns := nodes.getD []
    if ns ≠ [] then
      let content_heights := measure_content_heights wFn w2Fn ns node_w true false 70 250
      let row_heights0 :=
        (List.range rows.toNat).map fun r =>
          let row_node_ids := (node_ids.drop (r * cols.toNat)).take cols.toNat
          listMax (row_node_ids.map fun nid => (dlookup nid content_heights).getD 100)
      let total_rows_h0 := row_heights0.foldl (· + ·) 0
      let arrow_space := (rows - 1) * 70
      let available_for_cards := usable_h - arrow_space
      let row_heights :=
        if total_rows_h0 > available_for_cards ∧ available_for_cards > 0 then
          row_heights0.map fun h =>
            max 60 (pyInt ((h : ℚ) * ((available_for_cards : ℚ) / (total_rows_h0 : ℚ))))
        else row_heights0
      let total_rows_h := row_heights.foldl (· + ·) 0
      let leftover_h := usable_h - total_rows_h
      let actual_row_gap :=
        if rows > 1 then max row_gap (min (leftover_h.fdiv (rows + 1)) 40) else row_gap
      let total_grid_h := total_rows_h + (rows - 1) * actual_row_gap
      let top_leftover := max 0 (usable_h - total_grid_h)
      let start_y := header_h + min (top_leftover.fdiv 8) 15
      let placed := (List.range rows.toNat).foldl
        (fun (st : PosMap × Int) r =>
          let rh := (row_heights.get? r).getD 0
          let row_node_ids := (node_ids.drop (r * cols.toNat)).take cols.toNat
          let pos' := row_node_ids.enum.foldl
            (fun pos (c, nid) =>
              dinsert nid ⟨margin + c * (node_w + col_gap), st.2, node_w, rh⟩ pos)
            st.1
          (pos', st.2 + rh + actual_row_gap))
        ([], start_y)
      placed.1
    else
      let raw_h := (usable_h - (rows - 1) * row_gap).fdiv rows
      let max_h : Int :=
        if rows = 1 then 300 else if rows = 2 then 200 else if rows = 3 then 140 else 120
      let node_h := min raw_h max_h
      let total_cards_h := rows * node_h
      let leftover_h := usable_h - total_cards_h
      let actual_row_gap :=
        if rows > 1 then min (max row_gap (leftover_h.fdiv (rows + 1))) 40 else row_gap
      let total_grid_h := rows * node_h + (rows - 1) * actual_row_gap
      let top_leftover := max 0 (usable_h - total_grid_h)
      let start_y := header_h + min (top_leftover.fdiv 8) 15
      node_ids.enum.foldl
        (fun pos (i, nid) =>
          let col := (i : Int) % cols
          let row := (i : Int).fdiv cols
          dinsert nid
            ⟨margin + col * (node_w + col_gap), start_y + row * (node_h + actual_row_gap),
              node_w, node_h⟩ pos)
        []

/-- `layout_columns(groups, canvas_w, canvas_h, margin=60, header_h=80)`. -/
def layout_columns (groups : List (List String))
    (canvas_w canvas_h margin header_h : Int) : PosMap :=
  if groups.length = 0 then []
  else
    let n_cols : Int := groups.length
    let gap : Int := 30
    let usable_w := canvas_w - margin * 2
    let col_w := (usable_w - (n_cols - 1) * gap).fdiv n_cols
    groups.enum.foldl
      (fun pos (ci, group) =>
        let col_x := margin + ci * (col_w + gap)
        let n_items : Int := group.length
        let item_gap : Int := 15
        let usable_h := canvas_h - header_h - margin - 60
        let item_h := min ((usable_h - (n_items - 1) * item_gap).fdiv (max n_items 1)) 100
        group.enum.foldl
          (fun pos' (ri, nid) =>
            dinsert nid ⟨col_x, header_h + 60 + ri * (item_h + item_gap), col_w, item_h⟩ pos')
          pos)
      []

/-- `layout_layered(layers, nodes, canvas_w, canvas_h, margin=60,
header_h=100)`. -/
def layout_layered (wFn w2Fn : String → Int) (layers : List LayerDict)
    (nodes : List Node) (canvas_w canvas_h margin header_h : Int) : PosMap :=
  if layers = [] then []
  else
    let n_layers : Int := layers.length
    let available_h := canvas_h - header_h - margin
    let layer_h := available_h.fdiv n_layers
    let label_reserve : Int := 45
    let _layer_gap := max 30 label_reserve
    let nodes_by_id := nodes.foldl (fun d nd => dinsert nd.id nd d) ([] : List (String × Node))
    layers.enum.foldl
      (fun pos (li, layer) =>
        let layer_y := header_h + li * layer_h
        let node_ids := layer.nodes
        let n_nodes : Int := node_ids.length
        if node_ids.length = 0 then pos
        else
          let usable_w := canvas_w - margin * 2
          let gap : Int := if n_nodes ≤ 3 then 45 else if n_nodes ≤ 5 then 30 else 20
          let max_node_w : Int := if n_nodes ≤ 3 then 220 else if n_nodes ≤ 5 then 200 else 180
          let node_w0 := min ((usable_w - (n_nodes - 1) * gap).fdiv (max n_nodes 1)) max_node_w
          let node_w := max node_w0 100
          let total_nodes_w := n_nodes * node_w + (n_nodes - 1) * gap
          let start_x := margin + (usable_w - total_nodes_w).fdiv 2
          let layer_nodes := node_ids.filterMap fun nid => dlookup nid nodes_by_id
          let max_node_h := max 70 (min 220 (layer_h - label_reserve - 16))
          let node_h1 :=
            if layer_nodes ≠ [] then
              let measured := measure_content_heights wFn w2Fn layer_nodes node_w true false 70 max_node_h
              if measured ≠ [] then listMax (measured.map (·.2)) else max_node_h
            else min max_node_h 160
          let node_h := max 70 (min node_h1 max_node_h)
          let top_reserve := min (max label_reserve 34) (max 34 (layer_h.fdiv 2))
          let bottom_reserve : Int := 12
          let usable_layer_h := max node_h (layer_h - top_reserve - bottom_reserve)
          let node_y := layer_y + top_reserve + max 0 ((usable_layer_h - node_h).fdiv 2)
          node_ids.enum.foldl
            (fun pos' (ni, nid) =>
              dinsert nid ⟨start_x + ni * (node_w + gap), node_y, node_w, node_h⟩ pos')
            pos)
      []

/-- `layout_zone_based(zones, nodes, connections, canvas_w, canvas_h,
margin=60, header_h=100, zone_padding=35)`: returns `(node_positions,
zone_rects)`. The `nodes` and `connections` parameters are accepted but
never read by the source body. -/
def layout_zone_based (zones : List ZoneDict) (_nodes : List Node)
    (_connections : List Conn) (canvas_w canvas_h margin header_h zone_padding : Int) :
    PosMap × List ZoneRect :=
  if zones = [] then ([], [])
  else
    let n_zones : Int := zones.length
    let usable_w := canvas_w - 2 * margin
    let usable_h := canvas_h - header_h - margin
    let zone_rects :=
      if n_zones ≤ 3 then
        let zone_gap : Int := 20
        let zone_w := (usable_w - (n_zones - 1) * zone_gap).fdiv n_zones
        zones.enum.map fun (zi, zone) =>
          { bbox := ⟨margin + zi * (zone_w + zone_gap), header_h + 10, zone_w, usable_h - 20⟩,
            name := zone.name.getD ("Zone " ++ toString (zi + 1)),
            color := zone.color.getD "#2B7DE9" : ZoneRect }
      else
        let cols := (n_zones + 1).fdiv 2
        let zone_gap : Int := 20
        let row_gap : Int := 20
        let zone_w := (usable_w - (cols - 1) * zone_gap).fdiv cols
        let row_h := (usable_h - row_gap).fdiv 2
        zones.enum.map fun (zi, zone) =>
          let r := (zi : Int).fdiv cols
          let c := (zi : Int) % cols
          { bbox := ⟨margin + c * (zone_w + zone_gap), header_h + 10 + r * (row_h + row_gap),
              zone_w, row_h⟩,
            name := zone.name.getD ("Zone " ++ toString (zi + 1)),
            color := zone.color.getD "#2B7DE9" : ZoneRect }
    let zone_node_map := zones.enum.foldl
      (fun d (i, z) => dinsert (z.name.getD ("Zone " ++ toString (i + 1))) z.nodes d)
      ([] : List (String × List String))
    let positions := zone_rects.foldl
      (fun pos zr =>
        let node_ids_in_zone := (dlookup zr.name zone_node_map).getD []
        if node_ids_in_zone = [] then pos
        else
          let bx := zr.bbox.x
          let by0 := zr.bbox.y
          let bw := zr.bbox.w
          let bh := zr.bbox.h
          let inner_x := bx + zone_padding
          let inner_y := by0 + zone_padding + 25
          let inner_w := bw - 2 * zone_padding
          let inner_h := bh - 2 * zone_padding - 25
          let n_local : Int := node_ids_in_zone.length
          let cols_local : Int :=
            if n_local ≤ 3 then n_local else if n_local ≤ 6 then 3 else min 4 n_local
          let rows_local := (n_local + cols_local - 1).fdiv cols_local
          let nw := min ((inner_w - (cols_local - 1) * 12).fdiv cols_local) 150
          let nh := min ((inner_h - (rows_local - 1) * 12).fdiv rows_local) 90
          node_ids_in_zone.enum.foldl
            (fun pos' (ni, nid) =>
              let r := (ni : Int).fdiv cols_local
              let c := (ni : Int) % cols_local
              let total_row_w := cols_local * nw + (cols_local - 1) * 12
              let offset_x := (inner_w - total_row_w).fdiv 2
              dinsert nid
                ⟨inner_x + offset_x + c * (nw + 12), inner_y + r * (nh + 12), nw, nh⟩ pos')
            pos)
      []
    (positions, zone_rects)

/-- `get_node_center(pos)`. -/
def get_node_center (b : Box) : Int × Int :=
  (b.x + b.w.fdiv 2, b.y + b.h.fdiv 2)

/-- `get_node_bottom(pos)`. -/
def get_node_bottom (b : Box) : Int × Int :=
  (b.x + b.w.fdiv 2, b.y + b.h)

/-- `get_node_top(pos)`. -/
def get_node_top (b : Box) : Int × Int :=
  (b.x + b.w.fdiv 2, b.y)

/-- `get_node_left(pos)`. -/
def get_node_left (b : Box) : Int × Int :=
  (b.x, b.y + b.h.fdiv 2)

/-- `get_node_right(pos)`. -/
def get_node_right (b : Box) : Int × Int :=
  (b.x + b.w, b.y + b.h.fdiv 2)

/-!
Force-directed layout (`layout_force_directed`, layout.py lines 522-677)

Float arithmetic is modelled over `ℚ`; the transcendental library calls
`math.sqrt`, `math.cos`, `math.sin`, `math.atan2` and the constant
`math.pi` are oracle parameters collected in `MathOracle`. Float literals
that are not dyadic (`0.012`, `0.03`, `0.7`, `0.6`) are taken at their
decimal value. The `random` module's post-`seed(42)` stream of
`uniform(-40, 40)` samples is the oracle `mt : ℕ → ℚ`; the interpreter's
global RNG state before the call is an explicit argument that the body
never reads, because `random.seed(42)` is the first statement of the
source function.
-/

/-- Oracles for the float math library and PIL text metrics. -/
structure MathOracle where
  sqrtFn : ℚ → ℚ
  cosFn : ℚ → ℚ
  sinFn : ℚ → ℚ
  atan2Fn : ℚ → ℚ → ℚ
  piv : ℚ
  textW : String → Int
  textH : String → Int

/-- `l[i] += d` on a rational array. -/
def bump (l : List ℚ) (i : Nat) (d : ℚ) : List ℚ :=
  l.set i ((l[i]?.getD 0) + d)

/-- Parameters of the force simulation threaded through the iteration
loop. -/
structure ForceEnv where
  M : MathOracle
  connections : List Conn
  groups : List (Option String × List Nat)
  id_to_idx : List (String × Nat)
  repulsion_k : ℚ
  attraction_k : ℚ
  group_k : ℚ
  damping : ℚ
  n : Nat
  iterations : Nat
  xlo : ℚ
  xhi : ℚ
  ylo : ℚ
  yhi : ℚ

/-- One iteration body of the force simulation: repulsive all-pairs forces,
attractive forces along connections, group-cohesion forces, then the
temperature-scaled position update with boundary clamping. -/
def forceStep (env : ForceEnv) (temp : ℚ) (st : List ℚ × List ℚ) :
    List ℚ × List ℚ :=
  let px := st.1
  let py := st.2
  let f0 : List ℚ × List ℚ := (List.replicate env.n 0, List.replicate env.n 0)
  let f1 := (pairList env.n).foldl
    (fun (f : List ℚ × List ℚ) ij =>
      let i := ij.1
      let j := ij.2
      let dx := (px[i]?.getD 0) - (px[j]?.getD 0)
      let dy := (py[i]?.getD 0) - (py[j]?.getD 0)
      let dist_sq := dx * dx + dy * dy + 1
      let dist := env.M.sqrtFn dist_sq
      let force := env.repulsion_k / dist_sq
      let fdx := force * dx / dist
      let fdy := force * dy / dist
      (bump (bump f.1 i fdx) j (-fdx), bump (bump f.2 i fdy) j (-fdy)))
    f0
  let f2 := env.connections.foldl
    (fun (f : List ℚ × List ℚ) conn =>
      match dlookup conn.from_node env.id_to_idx, dlookup conn.to_node env.id_to_idx with
      | some i, some j =>
        let dx := (px[j]?.getD 0) - (px[i]?.getD 0)
        let dy := (py[j]?.getD 0) - (py[i]?.getD 0)
        let dist := env.M.sqrtFn (dx * dx + dy * dy + 1)
        let force := env.attraction_k * dist
        (bump (bump f.1 i (force * dx / dist)) j (-(force * dx / dist)),
         bump (bump f.2 i (force * dy / dist)) j (-(force * dy / dist)))
      | _, _ => f)
    f1
  let f3 := env.groups.foldl
    (fun (f : List ℚ × List ℚ) g =>
      if g.1 = none ∨ g.2.length < 2 then f
      else
        let gcx := (g.2.foldl (fun s i => s + (px[i]?.getD 0)) 0) / (g.2.length : ℚ)
        let gcy := (g.2.foldl (fun s i => s + (py[i]?.getD 0)) 0) / (g.2.length : ℚ)
        g.2.foldl
          (fun (f' : List ℚ × List ℚ) i =>
            (bump f'.1 i (env.group_k * (gcx - (px[i]?.getD 0))),
             bump f'.2 i (env.group_k * (gcy - (py[i]?.getD 0)))))
          f)
    f2
  let px' := (List.range env.n).map fun i =>
    max env.xlo (min env.xhi ((px[i]?.getD 0) + (f3.1[i]?.getD 0) * temp))
  let py' := (List.range env.n).map fun i =>
    max env.ylo (min env.yhi ((py[i]?.getD 0) + (f3.2[i]?.getD 0) * temp))
  (px', py')

/-- The `for iteration in range(iterations)` loop with its cooling schedule
and early exit `if temp < 0.01: break`; `it` is the current iteration
index, the fuel starts at `iterations`. -/
def forceLoop (env : ForceEnv) : Nat → Nat → List ℚ × List ℚ → List ℚ × List ℚ
  | _, 0, st => st
  | it, fuel + 1, st =>
    let temp := env.damping * (1 - (it : ℚ) / (env.iterations : ℚ))
    if temp < 1 / 100 then st
    else forceLoop env (it + 1) fuel (forceStep env temp st)

/-- `layout_force_directed(nodes, connections, canvas_w, canvas_h,
margin=80, header_h=120, iterations=150, node_w=160, node_h=90)`. The
argument `_rng_state` is the global `random` state at call time; it is
unread because the source reseeds with the fixed constant 42 before
drawing, making `mt` the effective sample stream on every call. -/
def layout_force_directed (M : MathOracle) (mt : ℕ → ℚ) (_rng_state : ℕ)
    (nodes : List Node) (connections : List Conn)
    (canvas_w canvas_h margin header_h : Int) (iterations : Nat)
    (node_w node_h : Int) : PosMap :=
  if nodes.length = 0 then []
  else
    let n := nodes.length
    let _adj := connections.flatMap fun c =>
      [(c.from_node, c.to_node), (c.to_node, c.from_node)]
    let usable_w := canvas_w - 2 * margin
    let usable_h := canvas_h - header_h - margin
    let cx := margin + usable_w.fdiv 2
    let cy := header_h + usable_h.fdiv 2
    let groups := nodes.enum.foldl
      (fun g (i, node) => dappend (pyOr node.zone node.group) i g)
      ([] : List (Option String × List Nat))
    let seeded := groups.enum.foldl
      (fun (st : Nat × List ℚ × List ℚ) gkv =>
        let gi := gkv.1
        let gk := gkv.2.1
        let idxs := gkv.2.2
        let angle := 2 * M.piv * (gi : ℚ) / (max groups.length 1 : ℚ) - M.piv / 2
        let gr := (min usable_w usable_h : ℚ) * (25 / 100)
        let gx := if gk ≠ none then (cx : ℚ) + gr * M.cosFn angle else (cx : ℚ)
        let gy := if gk ≠ none then (cy : ℚ) + gr * M.sinFn angle else (cy : ℚ)
        idxs.foldl
          (fun (st' : Nat × List ℚ × List ℚ) idx =>
            (st'.1 + 2, (st'.2.1.set idx (gx + mt st'.1), st'.2.2.set idx (gy + mt (st'.1 + 1)))))
          st)
      (0, List.replicate n (0 : ℚ), List.replicate n (0 : ℚ))
    let area_factor := ((usable_w * usable_h : Int) : ℚ) / (max (n * n) 1 : ℚ)
    let repulsion_k := max 8000 (area_factor * (1 / 2))
    let node_ids := nodes.map (·.id)
    let id_to_idx := node_ids.enum.foldl
      (fun d (i, nid) => dinsert nid i d) ([] : List (String × Nat))
    let env : ForceEnv :=
      { M := M, connections := connections, groups := groups, id_to_idx := id_to_idx,
        repulsion_k := repulsion_k, attraction_k := 12 / 1000, group_k := 3 / 100,
        damping := 1 / 2, n := n, iterations := iterations,
        xlo := ((margin + node_w.fdiv 2 : Int) : ℚ),
        xhi := ((canvas_w - margin - node_w.fdiv 2 : Int) : ℚ),
        ylo := ((header_h + node_h.fdiv 2 : Int) : ℚ),
        yhi := ((canvas_h - margin - node_h.fdiv 2 : Int) : ℚ) }
    let relaxed := forceLoop env 0 iterations (seeded.2.1, seeded.2.2)
    let expanded :=
      if 1 < n then
        let min_x := listMinQ relaxed.1
        let max_x := listMaxQ relaxed.1
        let min_y := listMinQ relaxed.2
        let max_y := listMaxQ relaxed.2
        let span_x := max_x - min_x
        let span_y := max_y - min_y
        let target_w := (usable_w : ℚ) * (75 / 100)
        let target_h := (usable_h : ℚ) * (70 / 100)
        let px1 :=
          if span_x > 0 ∧ span_x < target_w * (6 / 10) then
            relaxed.1.map fun v => (cx : ℚ) + (v - (cx : ℚ)) * (target_w / max span_x 1)
          else relaxed.1
        let py1 :=
          if span_y > 0 ∧ span_y < target_h * (6 / 10) then
            relaxed.2.map fun v => (cy : ℚ) + (v - (cy : ℚ)) * (target_h / max span_y 1)
          else relaxed.2
        (px1.map fun v => max env.xlo (min env.xhi v),
         py1.map fun v => max env.ylo (min env.yhi v))
      else relaxed
    let positions := node_ids.enum.foldl
      (fun pos (i, nid) =>
        dinsert nid
          ⟨pyInt (expanded.1[i]?.getD 0) - node_w.fdiv 2,
            pyInt (expanded.2[i]?.getD 0) - node_h.fdiv 2, node_w, node_h⟩ pos)
      ([] : PosMap)
    resolve_overlaps positions 15 50 1400 900

/-!
Arrow rendering (`backend/renderer/arrows.py`)

The PIL canvas is modelled as the list of primitive drawing calls a
function emits, in order. Colors, fonts and stroke widths are omitted from
the operations since no claim concerns them; the geometry (including every
`int(...)` truncation) is kept. Text extents come from the `textW`/`textH`
oracles of `MathOracle`, standing for `text_size` with the font each call
site constructs.
-/

/-- A primitive PIL drawing call. -/
inductive DrawOp where
  | line (s e : Int × Int)
  | polygon (pts : List (Int × Int))
  | ellipse (x0 y0 x1 y1 : Int)
  | roundedRect (x0 y0 x1 y1 : Int)
  | text (pos : Int × Int) (content : String)
deriving DecidableEq, Repr

/-- `_draw_arrowhead(draw, tip, angle, size, color)`: one filled triangle. -/
def draw_arrowhead (M : MathOracle) (tip : Int × Int) (angle : ℚ) (size : Int) :
    List DrawOp :=
  let left_angle := angle + M.piv * (82 / 100)
  let right_angle := angle - M.piv * (82 / 100)
  [DrawOp.polygon
    [tip,
     (tip.1 + pyInt ((size : ℚ) * M.cosFn left_angle),
      tip.2 + pyInt ((size : ℚ) * M.sinFn left_angle)),
     (tip.1 + pyInt ((size : ℚ) * M.cosFn right_angle),
      tip.2 + pyInt ((size : ℚ) * M.sinFn right_angle))]]

/-- `_draw_dashed_line(draw, start, end, color, width, dash_length=8,
gap_length=5)`: the `while pos < length` loop emits
`ceil(length / 13)` dash segments (and nothing when the length is zero). -/
def draw_dashed_line (M : MathOracle) (start stop : Int × Int) : List DrawOp :=
  let dx := stop.1 - start.1
  let dy := stop.2 - start.2
  let length := M.sqrtFn ((dx * dx + dy * dy : Int) : ℚ)
  if length = 0 then []
  else
    let ux := (dx : ℚ) / length
    let uy := (dy : ℚ) / length
    (List.range (Int.toNat (ratCeil (length / 13)))).map fun k =>
      let pos : ℚ := 13 * k
      let e_pos := min (pos + 8) length
      DrawOp.line
        (pyInt ((start.1 : ℚ) + ux * pos), pyInt ((start.2 : ℚ) + uy * pos))
        (pyInt ((start.1 : ℚ) + ux * e_pos), pyInt ((start.2 : ℚ) + uy * e_pos))

/-- `_draw_polyline(draw, points, color, width, dashed)`. -/
def draw_polyline (M : MathOracle) (points : List (Int × Int)) (dashed : Bool) :
    List DrawOp :=
  (points.zip points.tail).flatMap fun (p, q) =>
    if dashed then draw_dashed_line M p q else [DrawOp.line p q]

/-- `_manhattan_route(start, end, direction)`. -/
def manhattan_route (start stop : Int × Int) (direction : String) :
    List (Int × Int) :=
  let sx := start.1
  let sy := start.2
  let ex := stop.1
  let ey := stop.2
  let dx := |ex - sx|
  let dy := |ey - sy|
  if dx < 3 then [(sx, sy), (sx, ey)]
  else if dy < 3 then [(sx, sy), (ex, sy)]
  else
    let dir := if direction = "auto" then (if dy > dx / 2 then "v_first" else "h_first")
      else direction
    if dir = "v_first" then
      let mid_y := (sy + ey).fdiv 2
      [(sx, sy), (sx, mid_y), (ex, mid_y), (ex, ey)]
    else
      let mid_x := (sx + ex).fdiv 2
      [(sx, sy), (mid_x, sy), (mid_x, ey), (ex, ey)]

/-- The tail of the consecutive-duplicate removal in `draw_manhattan_arrow`:
`last` is the most recently kept point (`clean_points[-1]`). -/
def cleanAux (last : Int × Int) : List (Int × Int) → List (Int × Int)
  | [] => []
  | q :: rest => if q = last then cleanAux last rest else q :: cleanAux q rest

/-- The consecutive-duplicate removal in `draw_manhattan_arrow`
(`clean_points`): keep the first point, then drop each point equal to the
previously kept one. -/
def cleanPoints : List (Int × Int) → List (Int × Int)
  | [] => []
  | p :: rest => p :: cleanAux p rest

/-- `_draw_label_on_path(draw, points, label, color)`: background pill plus
label text on the longest segment (the luminance-based pill coloring does
not affect geometry and is omitted with the colors). -/
def draw_label_on_path (M : MathOracle) (points : List (Int × Int))
    (label : String) : List DrawOp :=
  if points.length < 2 then []
  else
    let segs := (points.zip points.tail).enum
    let best := segs.foldl
      (fun (b : Nat × ℚ) s =>
        let dx := s.2.2.1 - s.2.1.1
        let dy := s.2.2.2 - s.2.1.2
        let seg_len := M.sqrtFn ((dx * dx + dy * dy : Int) : ℚ)
        if seg_len > b.2 then (s.1, seg_len) else b)
      (0, 0)
    let p := points[best.1]?.getD (0, 0)
    let q := points[best.1 + 1]?.getD (0, 0)
    let mx0 := (p.1 + q.1).fdiv 2
    let my0 := (p.2 + q.2).fdiv 2
    let tw := M.textW label
    let th := M.textH label
    let padding : Int := 5
    let seg_dx := |q.1 - p.1|
    let seg_dy := |q.2 - p.2|
    let mx := if seg_dx > seg_dy then mx0 else mx0 + padding + 5
    let my := if seg_dx > seg_dy then my0 - (th.fdiv 2 + padding + 5) else my0
    [DrawOp.roundedRect (mx - tw.fdiv 2 - padding) (my - th.fdiv 2 - padding)
        (mx + tw.fdiv 2 + padding) (my + th.fdiv 2 + padding),
     DrawOp.text (mx - tw.fdiv 2, my - th.fdiv 2) label]

/-- `draw_manhattan_arrow(draw, start, end, color, width, head_size,
dashed, direction, label)`. -/
def draw_manhattan_arrow (M : MathOracle) (start stop : Int × Int)
    (head_size : Int) (dashed : Bool) (direction : String)
    (label : Option String) : List DrawOp :=
  let points := cleanPoints (manhattan_route start stop direction)
  if points.length < 2 then []
  else
    let last := points.getLast?.getD (0, 0)
    let prev := points[points.length - 2]?.getD (0, 0)
    let angle := M.atan2Fn ((last.2 - prev.2 : Int) : ℚ) ((last.1 - prev.1 : Int) : ℚ)
    draw_polyline M points dashed ++ draw_arrowhead M last angle head_size ++
      (match label with
       | some l => draw_label_on_path M points l
       | none => [])

/-- `draw_straight_arrow(draw, start, end, color, width, head_size,
dashed)`: always a line (dashed or solid) plus an arrowhead. -/
def draw_straight_arrow (M : MathOracle) (start stop : Int × Int)
    (head_size : Int) (dashed : Bool) : List DrawOp :=
  let body := if dashed then draw_dashed_line M start stop else [DrawOp.line start stop]
  let angle := M.atan2Fn ((stop.2 - start.2 : Int) : ℚ) ((stop.1 - start.1 : Int) : ℚ)
  body ++ draw_arrowhead M stop angle head_size

/-- `draw_bidirectional_arrow(draw, start, end, color, width, head_size,
offset=4)`. -/
def draw_bidirectional_arrow (M : MathOracle) (start stop : Int × Int)
    (head_size : Int) (offset : Int) : List DrawOp :=
  let sx := start.1
  let sy := start.2
  let ex := stop.1
  let ey := stop.2
  let dx := ex - sx
  let dy := ey - sy
  let length := M.sqrtFn ((dx * dx + dy * dy : Int) : ℚ)
  if length = 0 then []
  else
    let nx := -(dy : ℚ) / length * (offset : ℚ)
    let ny := (dx : ℚ) / length * (offset : ℚ)
    let s1 := (pyInt ((sx : ℚ) + nx), pyInt ((sy : ℚ) + ny))
    let e1 := (pyInt ((ex : ℚ) + nx), pyInt ((ey : ℚ) + ny))
    let angle_fwd := M.atan2Fn ((e1.2 - s1.2 : Int) : ℚ) ((e1.1 - s1.1 : Int) : ℚ)
    let s2 := (pyInt ((sx : ℚ) - nx), pyInt ((sy : ℚ) - ny))
    let e2 := (pyInt ((ex : ℚ) - nx), pyInt ((ey : ℚ) - ny))
    let angle_bwd := M.atan2Fn ((s2.2 - e2.2 : Int) : ℚ) ((s2.1 - e2.1 : Int) : ℚ)
    [DrawOp.line s1 e1] ++ draw_arrowhead M e1 angle_fwd head_size ++
      [DrawOp.line e2 s2] ++ draw_arrowhead M s2 angle_bwd head_size

/-- `draw_numbered_arrow(draw, start, end, number, label, color, width,
head_size, dashed=True, badge_size=20)`; the badge sits at 40% of the
path. -/
def draw_numbered_arrow (M : MathOracle) (start stop : Int × Int)
    (number : Int) (label : Option String) (head_size : Int) (dashed : Bool)
    (badge_size : Int) : List DrawOp :=
  let body := if dashed then draw_dashed_line M start stop else [DrawOp.line start stop]
  let angle := M.atan2Fn ((stop.2 - start.2 : Int) : ℚ) ((stop.1 - start.1 : Int) : ℚ)
  let mx := pyInt ((start.1 : ℚ) + (4 / 10) * ((stop.1 - start.1 : Int) : ℚ))
  let my := pyInt ((start.2 : ℚ) + (4 / 10) * ((stop.2 - start.2 : Int) : ℚ))
  let r := badge_size.fdiv 2
  let num_text := toString number
  let nw := M.textW num_text
  let nh := M.textH num_text
  body ++ draw_arrowhead M stop angle head_size ++
    [DrawOp.ellipse (mx - r - 1) (my - r - 1) (mx + r + 1) (my + r + 1),
     DrawOp.text (mx - nw.fdiv 2, my - nh.fdiv 2) num_text] ++
    (match label with
     | some l =>
       let lw := M.textW l
       let lh := M.textH l
       let is_horizontal := |stop.1 - start.1| > |stop.2 - start.2|
       let lx := mx + r + 4
       let ly := if is_horizontal then my - lh - 3 else my - lh.fdiv 2
       [DrawOp.roundedRect (lx - 3) (ly - 3) (lx + lw + 3) (ly + lh + 3),
        DrawOp.text (lx, ly) l]
     | none => [])

/-- `_sample_quadratic_bezier(p0, p1, p2, n_points)`. -/
def sample_quadratic_bezier (p0 p1 p2 : Int × Int) (n_points : Nat) :
    List (Int × Int) :=
  (List.range (n_points + 1)).map fun i =>
    let t : ℚ := (i : ℚ) / (n_points : ℚ)
    let inv := 1 - t
    (pyInt (inv * inv * p0.1 + 2 * inv * t * p1.1 + t * t * p2.1),
     pyInt (inv * inv * p0.2 + 2 * inv * t * p1.2 + t * t * p2.2))

/-- `_draw_path_label(draw, position, label, color)`. -/
def draw_path_label (M : MathOracle) (position : Int × Int) (label : String) :
    List DrawOp :=
  let tw := M.textW label
  let th := M.textH label
  let px := position.1
  let py := position.2 - (th.fdiv 2 + 6)
  [DrawOp.roundedRect (px - tw.fdiv 2 - 5) (py - 5) (px + tw.fdiv 2 + 5) (py + th + 5),
   DrawOp.text (px - tw.fdiv 2, py) label]

/-- `draw_bezier_arrow(draw, start, end, color, width, head_size,
dashed=True, curvature=0.25, label=None, flip_curve=False)`: returns no
drawing operation at all when the endpoint distance is below 5. -/
def draw_bezier_arrow (M : MathOracle) (start stop : Int × Int)
    (head_size : Int) (dashed : Bool) (curvature : ℚ) (label : Option String)
    (flip_curve : Bool) : List DrawOp :=
  let sx := start.1
  let sy := start.2
  let ex := stop.1
  let ey := stop.2
  let dx := ex - sx
  let dy := ey - sy
  let dist := M.sqrtFn ((dx * dx + dy * dy : Int) : ℚ)
  if dist < 5 then []
  else
    let offset0 := dist * curvature
    let offset := if flip_curve then -offset0 else offset0
    let nx := -(dy : ℚ) / dist
    let ny := (dx : ℚ) / dist
    let cx_ctrl := ((sx + ex : Int) : ℚ) / 2 + nx * offset
    let cy_ctrl := ((sy + ey : Int) : ℚ) / 2 + ny * offset
    let n_samples := (max 20 (pyInt (dist / 3))).toNat
    let pts := sample_quadratic_bezier (sx, sy) (pyInt cx_ctrl, pyInt cy_ctrl) (ex, ey) n_samples
    let headOps :=
      if pts.length ≥ 2 then
        let last := pts.getLast?.getD (0, 0)
        let prev := pts[pts.length - 2]?.getD (0, 0)
        draw_arrowhead M last
          (M.atan2Fn ((last.2 - prev.2 : Int) : ℚ) ((last.1 - prev.1 : Int) : ℚ)) head_size
      else []
    draw_polyline M pts dashed ++ headOps ++
      (match label with
       | some l => draw_path_label M (pts[pts.length / 2]?.getD (0, 0)) l
       | none => [])

/-- `draw_connection(draw, start, end, style="arrow", label=None,
color="#94A3B8", width=2, routing="manhattan")`: the style/routing
dispatcher. -/
def draw_connection (M : MathOracle) (start stop : Int × Int) (style : String)
    (label : Option String) (routing : String) : List DrawOp :=
  if style = "curved_arrow" ∨ style = "curved_dashed" then
    draw_bezier_arrow M start stop 10 (style = "curved_dashed") (25 / 100) label false
  else if routing = "bezier" then
    draw_bezier_arrow M start stop 10 true (25 / 100) label false
  else if routing = "manhattan" then
    if style = "bidirectional" then
      draw_bidirectional_arrow M start stop 10 4 ++
        (match label with
         | some l => draw_label_on_path M [start, stop] l
         | none => [])
    else if style = "dashed_arrow" then
      draw_manhattan_arrow M start stop 10 true "auto" label
    else if style = "line" then
      draw_polyline M (manhattan_route start stop "auto") false
    else
      draw_manhattan_arrow M start stop 10 false "auto" label
  else
    (if style = "bidirectional" then draw_bidirectional_arrow M start stop 10 4
     else if style = "dashed_arrow" then draw_straight_arrow M start stop 10 true
     else if style = "line" then [DrawOp.line start stop]
     else draw_straight_arrow M start stop 10 false) ++
      (match label with
       | some l => draw_label_on_path M [start, stop] l
       | none => [])

/-!
Path interpolation (`InfographicAnimator._interpolate_along_path`,
animator.py lines 474-520)
-/

/-- The segment-locating loop of `_interpolate_along_path`: `i` indexes the
current segment, `accumulated` the length walked so far; exhausting the
list is the `return waypoints[-1]` fallback. -/
def interpGo (waypoints : List (Int × Int)) (target : ℚ) :
    Nat → ℚ → List ℚ → Int × Int
  | _, _, [] => waypoints.getLast?.getD (0, 0)
  | i, accumulated, seg :: rest =>
    if accumulated + seg ≥ target then
      if seg < 1 then waypoints[i]?.getD (0, 0)
      else
        let local_t := (target - accumulated) / seg
        let p := waypoints[i]?.getD (0, 0)
        let q := waypoints[i + 1]?.getD (0, 0)
        (pyInt ((p.1 : ℚ) + local_t * ((q.1 - p.1 : Int) : ℚ)),
         pyInt ((p.2 : ℚ) + local_t * ((q.2 - p.2 : Int) : ℚ)))
    else interpGo waypoints target (i + 1) (accumulated + seg) rest

/-- `_interpolate_along_path(waypoints, t)`: arc-length parameterization of
a polyline, `None` for fewer than two waypoints. -/
def interpolate_along_path (sqrtFn : ℚ → ℚ) (waypoints : List (Int × Int))
    (t : ℚ) : Option (Int × Int) :=
  if waypoints.length < 2 then none
  else
    let segment_lengths := (waypoints.zip waypoints.tail).map fun (p, q) =>
      let dx := q.1 - p.1
      let dy := q.2 - p.2
      sqrtFn ((dx * dx + dy * dy : Int) : ℚ)
    let total_length := segment_lengths.foldl (· + ·) 0
    if total_length < 1 then some (waypoints[0]?.getD (0, 0))
    else some (interpGo waypoints (t * total_length) 0 0 segment_lengths)

/-!
Auto-crop (`_auto_crop`, engine.py lines 38-79)

An image is its dimensions plus a total pixel function (RGB triples of
naturals). `ImageChops.difference` is the per-channel absolute difference;
`convert("L")` is PIL's fixed-point ITU-R 601-2 luma
`(R*19595 + G*38470 + B*7471 + 32768) >> 16`; `getbbox` returns the
exclusive right/bottom bounds of the thresholded mask. The float constant
`0.15` is taken at its decimal value `15/100`.
-/

/-- A raster image. -/
structure Img where
  width : Nat
  height : Nat
  pixel : Nat → Nat → Nat × Nat × Nat

/-- The per-channel absolute difference of `ImageChops.difference`. -/
def chanDiff (a b : Nat) : Nat := max a b - min a b

/-- PIL `convert("L")` luma of an RGB triple. -/
def lumaL (p : Nat × Nat × Nat) : Nat :=
  (p.1 * 19595 + p.2.1 * 38470 + p.2.2 * 7471 + 32768) / 65536

/-- Whether pixel `(x, y)` survives `diff → grayscale → threshold 5`:
the content mask whose bounding box `getbbox` computes. -/
def maskAt (img : Img) (bg : Nat × Nat × Nat) (x y : Nat) : Bool :=
  let p := img.pixel x y
  lumaL (chanDiff p.1 bg.1, chanDiff p.2.1 bg.2.1, chanDiff p.2.2 bg.2.2) > 5

/-- Columns containing at least one mask pixel. -/
def activeCols (img : Img) (bg : Nat × Nat × Nat) : List Nat :=
  (List.range img.width).filter fun x =>
    (List.range img.height).any fun y => maskAt img bg x y

/-- Rows containing at least one mask pixel. -/
def activeRows (img : Img) (bg : Nat × Nat × Nat) : List Nat :=
  (List.range img.height).filter fun y =>
    (List.range img.width).any fun x => maskAt img bg x y

/-- `_auto_crop(img, bg_color, margin=20)`: crop bottom/right whitespace,
keeping the top-left corner, and only when at least 15% of the pixel area
is removed. -/
def auto_crop (img : Img) (bg : Nat × Nat × Nat) (margin : Nat) : Img :=
  if activeCols img bg = [] then img
  else
    let content_right := (activeCols img bg).foldl max 0 + 1
    let content_bottom := (activeRows img bg).foldl max 0 + 1
    let new_w := min img.width (content_right + margin)
    let new_h := min img.height (content_bottom + margin)
    let saved_area : Int := (img.width * img.height : Nat) - (new_w * new_h : Nat)
    let total_area : Int := (img.width * img.height : Nat)
    if (saved_area : ℚ) < (total_area : ℚ) * (15 / 100) then img
    else { width := new_w, height := new_h, pixel := img.pixel }

/-!
Architecture connection drawing (`render_architecture`,
src/renderer/renderers/architecture.py lines 154-250)

The connection phase is embedded as the list of edges it hands to
`draw_numbered_arrow`, with the fan-out anchor computation. A connection
whose endpoint ids are missing from the position map is filtered by the
`if conn.from_node in positions and conn.to_node in positions` guard.
-/

/-- An edge actually drawn by the architecture renderer. -/
structure DrawnEdge where
  from_node : String
  to_node : String
  start : Int × Int
  stop : Int × Int
  number : Int
deriving DecidableEq, Repr

/-- `node_layer_map` built from the effective layers (later layers win). -/
def nodeLayerMap (layers : List LayerDict) : List (String × Int) :=
  layers.enum.foldl
    (fun m (li, layer) => layer.nodes.foldl (fun m' nid => dinsert nid (li : Int) m') m)
    []

/-- `outgoing_down` / `outgoing_up`: per-source lists of targets whose
layer is strictly below / above the source's layer. -/
def outgoingMap (layerMap : List (String × Int)) (conns : List Conn)
    (down : Bool) : List (String × List String) :=
  conns.foldl
    (fun m conn =>
      let fl := (dlookup conn.from_node layerMap).getD 0
      let tl := (dlookup conn.to_node layerMap).getD 0
      if (if down then fl < tl else fl > tl) then
        match dlookup conn.from_node m with
        | some ts => dinsert conn.from_node (ts ++ [conn.to_node]) m
        | none => dinsert conn.from_node [conn.to_node] m
      else m)
    []

/-- The fan-out start-anchor offset: `idx`-th of `n_out` siblings spread
along the shared edge of a box of width `fw`. -/
def fanOutOffset (fw : Int) (n_out : Nat) (idx : Nat) : Int :=
  let spread := min (fw - 20) ((n_out : Int) * 30)
  let offset := -(spread.fdiv 2) + (idx : Int) * (spread.fdiv (max ((n_out : Int) - 1) 1))
  offset

/-- The anchor pair `(start, end)` the architecture renderer computes for
one connection with both endpoints positioned. -/
def archAnchors (layerMap : List (String × Int))
    (down up : List (String × List String)) (conn : Conn)
    (from_pos to_pos : Box) : (Int × Int) × (Int × Int) :=
  let from_layer := (dlookup conn.from_node layerMap).getD 0
  let to_layer := (dlookup conn.to_node layerMap).getD 0
  if from_layer < to_layer then
    let siblings := (dlookup conn.from_node down).getD []
    let n_out := siblings.length
    let start :=
      if 1 < n_out then
        (from_pos.x + from_pos.w.fdiv 2 + fanOutOffset from_pos.w n_out (siblings.indexOf conn.to_node),
         from_pos.y + from_pos.h)
      else get_node_bottom from_pos
    (start, get_node_top to_pos)
  else if to_layer < from_layer then
    let siblings := (dlookup conn.from_node up).getD []
    let n_out := siblings.length
    let start :=
      if 1 < n_out then
        (from_pos.x + from_pos.w.fdiv 2 + fanOutOffset from_pos.w n_out (siblings.indexOf conn.to_node),
         from_pos.y)
      else get_node_top from_pos
    (start, get_node_bottom to_pos)
  else
    let from_cx := from_pos.x + from_pos.w.fdiv 2
    let to_cx := to_pos.x + to_pos.w.fdiv 2
    if from_cx < to_cx then (get_node_right from_pos, get_node_left to_pos)
    else (get_node_left from_pos, get_node_right to_pos)

/-- The `for ci, conn in enumerate(data.connections)` loop: emit one
numbered edge per connection whose two endpoints are in `positions`,
silently skipping the rest. -/
def archEdgesGo (positions : PosMap) (layerMap : List (String × Int))
    (down up : List (String × List String)) : Nat → List Conn → List DrawnEdge
  | _, [] => []
  | ci, conn :: rest =>
    match dlookup conn.from_node positions, dlookup conn.to_node positions with
    | some from_pos, some to_pos =>
      let a := archAnchors layerMap down up conn from_pos to_pos
      { from_node := conn.from_node, to_node := conn.to_node,
        start := a.1, stop := a.2, number := (ci : Int) + 1 } ::
        archEdgesGo positions layerMap down up (ci + 1) rest
    | _, _ => archEdgesGo positions layerMap down up (ci + 1) rest

/-- The full connection-drawing phase of `render_architecture`. -/
def architecture_connection_edges (positions : PosMap)
    (layers : List LayerDict) (conns : List Conn) : List DrawnEdge :=
  let layerMap := nodeLayerMap layers
  archEdgesGo positions layerMap
    (outgoingMap layerMap conns true) (outgoingMap layerMap conns false) 0 conns

/-!
Concrete oracle instances

Computable stand-ins used only to instantiate oracle parameters in closed
witness and counterexample statements; every universally quantified
theorem holds for arbitrary oracles.
-/

/-- Kernel-reducible integer square root: the largest `k` with
`k * k ≤ n`. -/
def isqrt (n : Nat) : Nat :=
  ((List.range (n + 2)).filter fun k => k * k ≤ n).length - 1

/-- A computable square-root stand-in that is exact on perfect squares of
naturals. -/
def natSqrtQ (q : ℚ) : ℚ := (isqrt q.num.toNat : ℚ)

/-- A square-root stand-in pinned at the single value the two-point
round-trip path needs (`sqrt 10000 = 100`). -/
def sqrtOracle100 (q : ℚ) : ℚ := if q = 10000 then 100 else 0

/-- A concrete `MathOracle` for witness statements. -/
def oracle0 : MathOracle :=
  { sqrtFn := natSqrtQ, cosFn := fun _ => 0, sinFn := fun _ => 0,
    atan2Fn := fun _ _ => 0, piv := 3141592653589793 / 1000000000000000,
    textW := fun s => 7 * (s.length : Int), textH := fun _ => 12 }

/-!
Derived predicates used in the theorem statements
-/

/-- The key/size skeleton of a position map: everything `resolve_overlaps`
must leave untouched. -/
def keyWH (e : String × Box) : String × Int × Int :=
  (e.1, e.2.w, e.2.h)

/-- The range the clamping step of `resolve_overlaps` confines a moved box
to. -/
def inClamp (canvas_w canvas_h : Int) (b : Box) : Prop :=
  10 ≤ b.x ∧ b.x ≤ max 10 (canvas_w - b.w - 10) ∧
    10 ≤ b.y ∧ b.y ≤ max 10 (canvas_h - b.h - 10)

/-- Whether the pair of boxes at positions `ij` of the map is free of
padded overlap. -/
def sepAt (padding : Int) (pos : PosMap) (ij : Nat × Nat) : Bool :=
  match pos[ij.1]?, pos[ij.2]? with
  | some a, some b => !padOverlap padding a.2 b.2
  | _, _ => true

/-- Decidable check that all padded box pairs of a position map are
non-intersecting (the precondition of the zero-op claim). -/
def pairwiseSeparated (padding : Int) (pos : PosMap) : Bool :=
  (pairList pos.length).all (sepAt padding pos)

/-- The number of lines a wrap state will yield once flushed: the emitted
lines plus the pending non-empty `current`. -/
def wrapStateCount (st : List String × String) : Nat :=
  st.1.length + (if st.2 = "" then 0 else 1)

/-- The containment condition asserted by the spec: the box lies within
`[margin, canvas_dim - margin]` on both axes. -/
def inMargins (canvas_w canvas_h margin : Int) (b : Box) : Prop :=
  margin ≤ b.x ∧ margin ≤ b.y ∧ b.x + b.w ≤ canvas_w - margin ∧
    b.y + b.h ≤ canvas_h - margin

instance (canvas_w canvas_h margin : Int) (b : Box) :
    Decidable (inMargins canvas_w canvas_h margin b) := by
  unfold inMargins
  infer_instance

/-!
Theorems

Helper lemmas first, then one named theorem per claim (with witness or
counterexample theorems where required).
-/

/-- Setting a list index to the value it already holds is a no-op. -/
theorem list_set_self {γ : Type} :
    ∀ (l : List γ) (n : Nat) (x : γ), l[n]? = some x → l.set n x = l
  | [], _, _, h => by simp at h
  | a :: l, 0, x, h => by
    simp only [List.getElem?_cons_zero, Option.some.injEq] at h
    simp [h]
  | a :: l, n + 1, x, h => by
    simp only [List.getElem?_cons_succ] at h
    simp [list_set_self l n x h]

/-- Overwriting two entries with boxes of unchanged key and size preserves
the key/size skeleton of a position map. -/
theorem keyWH_set_set {l : PosMap} {i j : Nat} {ka kb : String} {a b a' b' : Box}
    (h1 : l[i]? = some (ka, a)) (h2 : l[j]? = some (kb, b))
    (hw1 : a'.w = a.w) (hh1 : a'.h = a.h) (hw2 : b'.w = b.w) (hh2 : b'.h = b.h) :
    ((l.set i (ka, a')).set j (kb, b')).map keyWH = l.map keyWH := by
  have e1 : (List.map keyWH l).set i (keyWH (ka, a')) = List.map keyWH l := by
    apply list_set_self
    rw [List.getElem?_map, h1]
    simp [keyWH, hw1, hh1]
  have e2 : (List.map keyWH l).set j (keyWH (kb, b')) = List.map keyWH l := by
    apply list_set_self
    rw [List.getElem?_map, h2]
    simp [keyWH, hw2, hh2]
  rw [List.map_set, List.map_set, e1, e2]

/-- `pairStep` never changes a key, a width or a height. -/
theorem pairStep_keyWH (padding cw ch : Int) (st : PosMap × Bool) (ij : Nat × Nat) :
    (pairStep padding cw ch st ij).1.map keyWH = st.1.map keyWH := by
  rcases h1 : st.1[ij.1]? with _ | ⟨ka, a⟩
  · simp [pairStep, h1]
  rcases h2 : st.1[ij.2]? with _ | ⟨kb, b⟩
  · simp [pairStep, h1, h2]
  simp only [pairStep, h1, h2]
  split
  next hov => split <;> split <;> exact keyWH_set_set h1 h2 rfl rfl rfl rfl
  next => rfl

/-- Folding `pairStep` over any pair list preserves the skeleton. -/
theorem foldl_pairStep_keyWH (padding cw ch : Int) :
    ∀ (l : List (Nat × Nat)) (st : PosMap × Bool),
      (l.foldl (pairStep padding cw ch) st).1.map keyWH = st.1.map keyWH
  | [], _ => rfl
  | ij :: l, st => by
    rw [List.foldl_cons, foldl_pairStep_keyWH padding cw ch l, pairStep_keyWH]

/-- The iteration loop preserves the skeleton. -/
theorem resolveLoop_keyWH (padding cw ch : Int) (n : Nat) :
    ∀ (fuel : Nat) (pos : PosMap),
      (resolveLoop padding cw ch n fuel pos).map keyWH = pos.map keyWH
  | 0, _ => rfl
  | fuel + 1, pos => by
    simp only [resolveLoop]
    split
    · rw [resolveLoop_keyWH padding cw ch n fuel]
      exact foldl_pairStep_keyWH padding cw ch _ _
    · exact foldl_pairStep_keyWH padding cw ch _ _

/-- C10. Frame property of `resolve_overlaps`: the returned map has exactly
the input's key sequence, and every box keeps its width and height — only
`x` and `y` may change. (The source works on a fresh `{nid: list(bbox)}`
copy, so the caller's dict is also never mutated; in this pure embedding
that is implicit.) -/
theorem resolve_overlaps_frame (positions : PosMap) (padding : Int)
    (max_iterations : Nat) (canvas_w canvas_h : Int) :
    (resolve_overlaps positions padding max_iterations canvas_w canvas_h).map keyWH =
      positions.map keyWH := by
  simp only [resolve_overlaps]
  split
  · rfl
  · exact resolveLoop_keyWH _ _ _ _ _ _

/-- The clamping step lands inside `inClamp`. -/
theorem clampBox_inClamp (cw ch : Int) (b : Box) :
    inClamp cw ch (clampBox cw ch b) := by
  refine ⟨le_max_left _ _, ?_, le_max_left _ _, ?_⟩ <;>
    exact max_le (le_max_left _ _) (le_trans (min_le_right _ _) (le_max_right _ _))

/-- The per-entry invariant of the clamp theorem: every current entry is
either still the original entry or has been clamped. -/
def InvC (cw ch : Int) (orig cur : PosMap) : Prop :=
  ∀ (i : Nat) (e : String × Box), cur[i]? = some e → orig[i]? = some e ∨ inClamp cw ch e.2

/-- `pairStep` preserves the clamp invariant. -/
theorem pairStep_InvC (padding cw ch : Int) (orig : PosMap) (st : PosMap × Bool)
    (ij : Nat × Nat) (H : InvC cw ch orig st.1) :
    InvC cw ch orig (pairStep padding cw ch st ij).1 := by
  rcases h1 : st.1[ij.1]? with _ | ⟨ka, a⟩
  · simpa [pairStep, h1] using H
  rcases h2 : st.1[ij.2]? with _ | ⟨kb, b⟩
  · simpa [pairStep, h1, h2] using H
  simp only [pairStep, h1, h2]
  split
  next hov =>
    intro m e hm
    by_cases hj : ij.2 = m
    · subst hj
      by_cases hlen : ij.2 < st.1.length
      · rw [List.getElem?_set_eq_of_lt _ (by simpa using hlen)] at hm
        cases hm
        exact Or.inr (clampBox_inClamp cw ch _)
      · rw [List.getElem?_eq_none (by simpa using Nat.le_of_not_lt hlen)] at hm
        cases hm
    · rw [List.getElem?_set_ne hj] at hm
      by_cases hi : ij.1 = m
      · subst hi
        by_cases hlen : ij.1 < st.1.length
        · rw [List.getElem?_set_eq_of_lt _ hlen] at hm
          cases hm
          exact Or.inr (clampBox_inClamp cw ch _)
        · rw [List.getElem?_eq_none (by simpa using Nat.le_of_not_lt hlen)] at hm
          cases hm
      · rw [List.getElem?_set_ne hi] at hm
        exact H m e hm
  next => exact H

/-- Folding `pairStep` preserves the clamp invariant. -/
theorem foldl_pairStep_InvC (padding cw ch : Int) (orig : PosMap) :
    ∀ (l : List (Nat × Nat)) (st : PosMap × Bool), InvC cw ch orig st.1 →
      InvC cw ch orig (l.foldl (pairStep padding cw ch) st).1
  | [], _, H => H
  | ij :: l, st, H => by
    rw [List.foldl_cons]
    exact foldl_pairStep_InvC padding cw ch orig l _ (pairStep_InvC padding cw ch orig st ij H)

/-- The iteration loop preserves the clamp invariant. -/
theorem resolveLoop_InvC (padding cw ch : Int) (n : Nat) (orig : PosMap) :
    ∀ (fuel : Nat) (pos : PosMap), InvC cw ch orig pos →
      InvC cw ch orig (resolveLoop padding cw ch n fuel pos)
  | 0, _, H => H
  | fuel + 1, pos, H => by
    simp only [resolveLoop]
    split
    · exact resolveLoop_InvC padding cw ch n orig fuel _
        (foldl_pairStep_InvC padding cw ch orig _ _ H)
    · exact foldl_pairStep_InvC padding cw ch orig _ _ H

/-- C1 (amended). After overlap resolution, a box need not lie within
`[margin, canvas_dim - margin]`; what the code guarantees is that every
output entry either equals the corresponding input entry or has been
clamped into `[10, canvas_dim - 10]` (given its unchanged size) — the
resolver's clamp uses the hard-coded inset 10, not the layout margin. -/
theorem resolve_overlaps_clamped (positions : PosMap) (padding : Int)
    (max_iterations : Nat) (canvas_w canvas_h : Int) (i : Nat) (e : String × Box)
    (h : (resolve_overlaps positions padding max_iterations canvas_w canvas_h)[i]? = some e) :
    positions[i]? = some e ∨ inClamp canvas_w canvas_h e.2 := by
  have base : InvC canvas_w canvas_h positions positions := by
    intro j x hx
    exact Or.inl hx
  simp only [resolve_overlaps] at h
  split at h
  · exact Or.inl h
  · exact resolveLoop_InvC padding canvas_w canvas_h _ positions _ positions base i e h

/-- Witness for `resolve_overlaps_clamped` at a concrete one-box input. -/
theorem resolve_overlaps_clamped_witness :
    [(("a" : String), (⟨0, 0, 50, 50⟩ : Box))][0]? = some ("a", ⟨0, 0, 50, 50⟩) ∨
      inClamp 1400 900 (⟨0, 0, 50, 50⟩ : Box) :=
  resolve_overlaps_clamped [("a", ⟨0, 0, 50, 50⟩)] 20 50 1400 900 0 _ (by decide)

set_option maxRecDepth 100000 in
/-- C1 (counterexample). Grid layout with 13 nodes at the default
parameters (canvas 1400×900, `cols=3`, `margin=50`, `header_h=100`)
followed by `resolve_overlaps` at its defaults leaves box `n12` with
bottom edge `741 + 120 = 861 > 850 = canvas_h - margin` and pushes box
`n0` to `x = 29 < 50 = margin`: containment within
`[margin, canvas_dim - margin]` fails after overlap resolution. -/
theorem grid13_containment_counterexample :
    (dlookup "n12"
        (resolve_overlaps
          (layout_grid (fun _ => 0) (fun _ => 0)
            ["n0", "n1", "n2", "n3", "n4", "n5", "n6", "n7", "n8", "n9", "n10", "n11", "n12"]
            1400 900 3 50 100 40 20 28 none)
          20 50 1400 900) = some ⟨50, 741, 420, 120⟩) ∧
    (dlookup "n0"
        (resolve_overlaps
          (layout_grid (fun _ => 0) (fun _ => 0)
            ["n0", "n1", "n2", "n3", "n4", "n5", "n6", "n7", "n8", "n9", "n10", "n11", "n12"]
            1400 900 3 50 100 40 20 28 none)
          20 50 1400 900) = some ⟨29, 101, 420, 120⟩) ∧
    ¬ inMargins 1400 900 50 ⟨50, 741, 420, 120⟩ ∧
    ¬ inMargins 1400 900 50 ⟨29, 101, 420, 120⟩ := by
  refine ⟨by decide, by decide, by decide, by decide⟩

/-- `pairStep` is the identity on a pair that is free of padded overlap. -/
theorem pairStep_noop (padding cw ch : Int) (pos : PosMap) (mv : Bool)
    (ij : Nat × Nat) (h : sepAt padding pos ij = true) :
    pairStep padding cw ch (pos, mv) ij = (pos, mv) := by
  rcases h1 : pos[ij.1]? with _ | ⟨ka, a⟩
  · simp [pairStep, h1]
  rcases h2 : pos[ij.2]? with _ | ⟨kb, b⟩
  · simp [pairStep, h1, h2]
  have hov : padOverlap padding a b = false := by
    simpa [sepAt, h1, h2] using h
  simp [pairStep, h1, h2, hov]

/-- A full pass moves nothing on a pairwise separated map. -/
theorem foldl_pairStep_noop (padding cw ch : Int) (pos : PosMap) (mv : Bool) :
    ∀ l : List (Nat × Nat), (∀ ij ∈ l, sepAt padding pos ij = true) →
      l.foldl (pairStep padding cw ch) (pos, mv) = (pos, mv)
  | [], _ => rfl
  | ij :: l, H => by
    rw [List.foldl_cons, pairStep_noop padding cw ch pos mv ij (H ij (List.mem_cons_self ij l))]
    exact foldl_pairStep_noop padding cw ch pos mv l fun x hx => H x (List.mem_cons_of_mem _ hx)

/-- C2 (amended). `resolve_overlaps` is a zero-op on an input whose padded
boxes are pairwise non-intersecting: the first pass detects no overlap and
the loop exits with the input returned unchanged. (The claim's stronger
clause — that two applications always coincide with one — fails when
`max_iterations` is exhausted before convergence; see the
counterexample.) -/
theorem resolve_overlaps_noop_on_separated (positions : PosMap) (padding : Int)
    (max_iterations : Nat) (canvas_w canvas_h : Int)
    (H : pairwiseSeparated padding positions = true) :
    resolve_overlaps positions padding max_iterations canvas_w canvas_h = positions := by
  have H' : ∀ ij ∈ pairList positions.length, sepAt padding positions ij = true :=
    List.all_eq_true.mp H
  simp only [resolve_overlaps]
  split
  · rfl
  · cases max_iterations with
    | zero => rfl
    | succ fuel =>
      have hp : resolvePass padding canvas_w canvas_h positions.length positions =
          (positions, false) :=
        foldl_pairStep_noop padding canvas_w canvas_h positions false _ H'
      simp [resolveLoop, hp]

/-- Witness for the zero-op theorem on two separated boxes. -/
theorem resolve_overlaps_noop_witness :
    pairwiseSeparated 20 [("a", ⟨0, 0, 50, 50⟩), ("b", ⟨200, 0, 50, 50⟩)] = true ∧
      resolve_overlaps [("a", ⟨0, 0, 50, 50⟩), ("b", ⟨200, 0, 50, 50⟩)] 20 50 1400 900 =
        [("a", ⟨0, 0, 50, 50⟩), ("b", ⟨200, 0, 50, 50⟩)] :=
  ⟨by decide,
    resolve_overlaps_noop_on_separated
      [("a", ⟨0, 0, 50, 50⟩), ("b", ⟨200, 0, 50, 50⟩)] 20 50 1400 900 (by decide)⟩

set_option maxRecDepth 100000 in
/-- C2 (counterexample). Six identical stacked boxes do not converge within
the default `max_iterations = 50`, so a second application of
`resolve_overlaps` keeps moving boxes: applying the function twice differs
from applying it once. -/
theorem resolve_overlaps_not_idempotent :
    resolve_overlaps
        (resolve_overlaps
          [("n0", ⟨100, 100, 120, 80⟩), ("n1", ⟨100, 100, 120, 80⟩),
           ("n2", ⟨100, 100, 120, 80⟩), ("n3", ⟨100, 100, 120, 80⟩),
           ("n4", ⟨100, 100, 120, 80⟩), ("n5", ⟨100, 100, 120, 80⟩)]
          20 50 1400 900)
        20 50 1400 900 ≠
      resolve_overlaps
        [("n0", ⟨100, 100, 120, 80⟩), ("n1", ⟨100, 100, 120, 80⟩),
         ("n2", ⟨100, 100, 120, 80⟩), ("n3", ⟨100, 100, 120, 80⟩),
         ("n4", ⟨100, 100, 120, 80⟩), ("n5", ⟨100, 100, 120, 80⟩)]
        20 50 1400 900 := by
  decide

/-- The connection loop draws exactly the connections whose two endpoint
ids resolve in the position map, in order. -/
theorem archEdgesGo_map_pairs (positions : PosMap) (lm : List (String × Int))
    (down up : List (String × List String)) :
    ∀ (conns : List Conn) (ci : Nat),
      (archEdgesGo positions lm down up ci conns).map (fun e => (e.from_node, e.to_node)) =
        (conns.filter fun c => dmem c.from_node positions && dmem c.to_node positions).map
          (fun c => (c.from_node, c.to_node))
  | [], _ => rfl
  | c :: rest, ci => by
    rcases hf : dlookup c.from_node positions with _ | fp
    · have hdm : dmem c.from_node positions = false := by simp [dmem, hf]
      simp [archEdgesGo, hf, List.filter_cons, hdm,
        archEdgesGo_map_pairs positions lm down up rest (ci + 1)]
    · rcases ht : dlookup c.to_node positions with _ | tp
      · have hdm : dmem c.to_node positions = false := by simp [dmem, ht]
        simp [archEdgesGo, hf, ht, List.filter_cons, hdm,
          archEdgesGo_map_pairs positions lm down up rest (ci + 1)]
      · have hdm : (dmem c.from_node positions && dmem c.to_node positions) = true := by
          simp [dmem, hf, ht]
        simp [archEdgesGo, hf, ht, List.filter_cons, hdm,
          archEdgesGo_map_pairs positions lm down up rest (ci + 1)]

/-- C3. Dangling-reference safety of the architecture renderer's connection
phase: the drawn edges are exactly the connections whose `from_node` and
`to_node` both occur in the computed position map (same order, one edge
each), every drawn edge has both endpoints present, and a connection with a
missing endpoint contributes no edge. In the embedding the loop is total,
matching the source's guard-based skip (no exception path exists). -/
theorem architecture_dangling_references_skipped (positions : PosMap)
    (layers : List LayerDict) (conns : List Conn) :
    ((architecture_connection_edges positions layers conns).map
        (fun e => (e.from_node, e.to_node)) =
      (conns.filter fun c => dmem c.from_node positions && dmem c.to_node positions).map
        (fun c => (c.from_node, c.to_node))) ∧
    ((architecture_connection_edges positions layers conns).length =
      (conns.filter fun c => dmem c.from_node positions && dmem c.to_node positions).length) ∧
    (∀ e ∈ architecture_connection_edges positions layers conns,
      dmem e.from_node positions = true ∧ dmem e.to_node positions = true) := by
  have hmap := archEdgesGo_map_pairs positions (nodeLayerMap layers)
    (outgoingMap (nodeLayerMap layers) conns true)
    (outgoingMap (nodeLayerMap layers) conns false) conns 0
  have hmap' : (architecture_connection_edges positions layers conns).map
      (fun e => (e.from_node, e.to_node)) =
      (conns.filter fun c => dmem c.from_node positions && dmem c.to_node positions).map
        (fun c => (c.from_node, c.to_node)) := by
    simpa [architecture_connection_edges] using hmap
  refine ⟨hmap', ?_, ?_⟩
  · have hlen := congrArg List.length hmap'
    simpa using hlen
  · intro e he
    have hmem : (e.from_node, e.to_node) ∈
        (conns.filter fun c => dmem c.from_node positions && dmem c.to_node positions).map
          (fun c => (c.from_node, c.to_node)) := by
      rw [← hmap']
      exact List.mem_map_of_mem _ he
    obtain ⟨c, hc, hpair⟩ := List.mem_map.mp hmem
    have hcf := (List.mem_filter.mp hc).2
    obtain ⟨hcf1, hcf2⟩ : dmem c.from_node positions = true ∧ dmem c.to_node positions = true := by
      simpa using hcf
    obtain ⟨hp1, hp2⟩ := Prod.mk.injEq .. ▸ hpair
    constructor
    · rw [← hp1]; exact hcf1
    · rw [← hp2]; exact hcf2

/-- Witness for the dangling-reference theorem: a two-layer scene with one
valid connection and one connection to a missing id draws exactly the
valid edge. -/
theorem architecture_dangling_witness :
    ((architecture_connection_edges
        [("a", ⟨0, 0, 10, 10⟩), ("b", ⟨0, 200, 10, 10⟩)]
        [⟨none, none, ["a"]⟩, ⟨none, none, ["b"]⟩]
        [⟨"a", "b", none, "arrow"⟩, ⟨"a", "ghost", none, "arrow"⟩]).map
        (fun e => (e.from_node, e.to_node)) = [("a", "b")]) ∧
    (dmem "b" [(("a" : String), (⟨0, 0, 10, 10⟩ : Box)), ("b", ⟨0, 200, 10, 10⟩)] = true) := by
  have h := architecture_dangling_references_skipped
    [("a", ⟨0, 0, 10, 10⟩), ("b", ⟨0, 200, 10, 10⟩)]
    [⟨none, none, ["a"]⟩, ⟨none, none, ["b"]⟩]
    [⟨"a", "b", none, "arrow"⟩, ⟨"a", "ghost", none, "arrow"⟩]
  constructor
  · rw [h.1]
    decide
  · exact (h.2.2 ⟨"a", "b", (5, 10), (5, 200), 1⟩ (by decide)).2

/-- C4. Path interpolation: on the two-point path `[(0,0), (100,0)]` (whose
single segment has exact length 100 for any square root agreeing with the
perfect square), `t = 0` gives `(0,0)`, `t = 1` gives `(100,0)`, `t = 0.5`
gives `(50,0)`; a path of total length below 1 returns its first waypoint,
and a `t` that overshoots the end returns the last waypoint. -/
theorem interpolate_along_path_spec (sqrtFn : ℚ → ℚ)
    (h100 : sqrtFn 10000 = 100) (h0 : sqrtFn 0 < 1) :
    interpolate_along_path sqrtFn [(0, 0), (100, 0)] 0 = some (0, 0) ∧
    interpolate_along_path sqrtFn [(0, 0), (100, 0)] 1 = some (100, 0) ∧
    interpolate_along_path sqrtFn [(0, 0), (100, 0)] (1 / 2) = some (50, 0) ∧
    interpolate_along_path sqrtFn [(3, 4), (3, 4)] (1 / 2) = some (3, 4) ∧
    interpolate_along_path sqrtFn [(0, 0), (100, 0)] 2 = some (100, 0) := by
  have e1 : ((((100 : Int) - 0) * ((100 : Int) - 0) +
      ((0 : Int) - 0) * ((0 : Int) - 0) : Int) : ℚ) = 10000 := by norm_num
  have e0 : ((((3 : Int) - 3) * ((3 : Int) - 3) +
      ((4 : Int) - 4) * ((4 : Int) - 4) : Int) : ℚ) = 0 := by norm_num
  refine ⟨?_, ?_, ?_, ?_, ?_⟩ <;>
    norm_num [interpolate_along_path, interpGo, pyInt, h100, h0]

/-- C5. Determinism of the force-directed layout: the result is independent
of the interpreter's prior global RNG state, because the source reseeds
with the fixed constant 42 on every invocation, so two calls with the same
scene, canvas and parameters produce identical position maps. -/
theorem layout_force_directed_deterministic (M : MathOracle) (mt : ℕ → ℚ)
    (g1 g2 : ℕ) (nodes : List Node) (connections : List Conn)
    (canvas_w canvas_h margin header_h : Int) (iterations : Nat)
    (node_w node_h : Int) :
    layout_force_directed M mt g1 nodes connections canvas_w canvas_h margin
        header_h iterations node_w node_h =
      layout_force_directed M mt g2 nodes connections canvas_w canvas_h margin
        header_h iterations node_w node_h := rfl

/-- C6 (amended). Only the bezier (curved) arrow drawer silently skips a
connection whose anchor distance is below 5: it emits no operation, and
the `curved_arrow` / `curved_dashed` styles of `draw_connection` therefore
emit nothing; straight and Manhattan arrows are not covered by this guard
(see the counterexample). -/
theorem bezier_degenerate_skip (M : MathOracle) (start stop : Int × Int)
    (head_size : Int) (dashed : Bool) (curvature : ℚ) (label : Option String)
    (flip_curve : Bool) (routing : String)
    (h : M.sqrtFn (((stop.1 - start.1) * (stop.1 - start.1) +
      (stop.2 - start.2) * (stop.2 - start.2) : Int) : ℚ) < 5) :
    draw_bezier_arrow M start stop head_size dashed curvature label flip_curve = [] ∧
    draw_connection M start stop "curved_arrow" label routing = [] ∧
    draw_connection M start stop "curved_dashed" label routing = [] := by
  have hb : ∀ (hs : Int) (d : Bool) (c : ℚ) (l : Option String) (f : Bool),
      draw_bezier_arrow M start stop hs d c l f = [] := by
    intro hs d c l f
    simp only [draw_bezier_arrow]
    rw [if_pos h]
  exact ⟨hb _ _ _ _ _, by simp [draw_connection, hb], by simp [draw_connection, hb]⟩

/-- Witness for the bezier degenerate-skip theorem at coincident anchors. -/
theorem bezier_degenerate_skip_witness :
    oracle0.sqrtFn ((((10 : Int) - 10) * ((10 : Int) - 10) +
        ((20 : Int) - 20) * ((20 : Int) - 20) : Int) : ℚ) < 5 ∧
      draw_bezier_arrow oracle0 (10, 20) (10, 20) 10 true (25 / 100) none false = [] :=
  ⟨by decide,
    (bezier_degenerate_skip oracle0 (10, 20) (10, 20) 10 true (25 / 100) none false
      "manhattan" (by decide)).1⟩

/-- C6 (counterexample). The skip is not style-independent: a default
(`arrow` / Manhattan) connection over distance 4 < 5 still emits a line and
an arrowhead, and a straight-routed arrow draws even at distance 0. -/
theorem arrow_degenerate_drawn_counterexample :
    oracle0.sqrtFn ((((4 : Int) - 0) * ((4 : Int) - 0) +
        ((0 : Int) - 0) * ((0 : Int) - 0) : Int) : ℚ) < 5 ∧
    draw_connection oracle0 (0, 0) (4, 0) "arrow" none "manhattan" ≠ [] ∧
    draw_connection oracle0 (0, 0) (0, 0) "arrow" none "straight" ≠ [] := by
  exact ⟨by decide, by decide, by decide⟩

/-- C7. Auto-crop contract: the output dimensions never exceed the input's,
the pixel plane is untouched (the crop window starts at the fixed top-left
corner `(0,0)`, so only bottom/right regions are removed), and a crop is
committed only when it removes at least 15% of the pixel area — otherwise
the image is returned unchanged. -/
theorem auto_crop_contract (img : Img) (bg : Nat × Nat × Nat) (margin : Nat) :
    (auto_crop img bg margin).width ≤ img.width ∧
    (auto_crop img bg margin).height ≤ img.height ∧
    (auto_crop img bg margin).pixel = img.pixel ∧
    (auto_crop img bg margin = img ∨
      ((img.width * img.height : Nat) : ℚ) * (15 / 100) ≤
        ((img.width * img.height : Nat) : ℚ) -
          (((auto_crop img bg margin).width * (auto_crop img bg margin).height : Nat) : ℚ)) := by
  simp only [auto_crop]
  split
  · exact ⟨le_refl _, le_refl _, rfl, Or.inl rfl⟩
  · split
    next hlt => exact ⟨le_refl _, le_refl _, rfl, Or.inl rfl⟩
    next hge =>
      refine ⟨Nat.min_le_left _ _, Nat.min_le_left _ _, rfl, Or.inr ?_⟩
      have hge' := not_lt.mp hge
      push_cast at hge' ⊢
      linarith

/-- C9. Every layout strategy returns the empty position map on an empty
collection of node ids (or zero groups/layers/zones/nodes for the grouped
strategies), for all canvas dimensions, margins and header heights; in the
embedding each of these is an early return that touches no arithmetic, so
no exception path exists. -/
theorem layouts_empty_input (wFn w2Fn : String → Int) (nodes : List Node)
    (nodesOpt : Option (List Node)) (connections : List Conn) (M : MathOracle)
    (mt : ℕ → ℚ) (g : ℕ)
    (canvas_w canvas_h margin header_h cols row_gap col_gap footer_h zone_padding : Int)
    (iterations : Nat) (node_w node_h : Int) :
    layout_flow_horizontal wFn w2Fn [] canvas_w canvas_h margin header_h nodesOpt = [] ∧
    layout_flow_vertical [] canvas_w canvas_h margin header_h = [] ∧
    layout_grid wFn w2Fn [] canvas_w canvas_h cols margin header_h row_gap col_gap
      footer_h nodesOpt = [] ∧
    layout_columns [] canvas_w canvas_h margin header_h = [] ∧
    layout_layered wFn w2Fn [] nodes canvas_w canvas_h margin header_h = [] ∧
    (layout_zone_based [] nodes connections canvas_w canvas_h margin header_h
      zone_padding).1 = [] ∧
    (layout_zone_based [] nodes connections canvas_w canvas_h margin header_h
      zone_padding).2 = [] ∧
    layout_force_directed M mt g [] connections canvas_w canvas_h margin header_h
      iterations node_w node_h = [] :=
  ⟨rfl, rfl, rfl, rfl, rfl, rfl, rfl, rfl⟩

/-- Witness for the path-interpolation theorem with a concrete square-root
stand-in that is exact on the path's segment length. -/
theorem interpolate_along_path_witness :
    sqrtOracle100 10000 = 100 ∧
      interpolate_along_path sqrtOracle100 [(0, 0), (100, 0)] (1 / 2) = some (50, 0) ∧
      interpolate_along_path sqrtOracle100 [(0, 0), (100, 0)] 2 = some (100, 0) :=
  ⟨by decide, (interpolate_along_path_spec sqrtOracle100 (by decide) (by decide)).2.2.1,
    (interpolate_along_path_spec sqrtOracle100 (by decide) (by decide)).2.2.2.2⟩

/-- A string with positive length is non-empty. -/
theorem ne_empty_of_length_pos {s : String} (h : 0 < s.length) : s ≠ "" := by
  intro he
  rw [he] at h
  exact absurd h (by decide)

/-- Pushing a character yields a non-empty string. -/
theorem push_ne_empty (s : String) (c : Char) : s.push c ≠ "" :=
  ne_empty_of_length_pos (by rw [String.length_push]; omega)

/-- A singleton string is non-empty. -/
theorem singleton_ne_empty (c : Char) : String.singleton c ≠ "" :=
  ne_empty_of_length_pos (by
    have h1 : (String.singleton c).length = 1 := rfl
    omega)

/-- Joining two strings with a space is non-empty. -/
theorem append_space_ne_empty (a b : String) : a ++ " " ++ b ≠ "" :=
  ne_empty_of_length_pos (by
    rw [String.length_append, String.length_append]
    have h1 : (" " : String).length = 1 := rfl
    omega)

/-- A hyphenation step never decreases the line count. -/
theorem count_wrapChar_le (w2Fn : String → Int) (m : Int)
    (st : List String × String) (c : Char) :
    wrapStateCount st ≤ wrapStateCount (wrapChar w2Fn m st c) := by
  obtain ⟨lines, part⟩ := st
  simp only [wrapChar]
  split
  next h =>
    simp only [wrapStateCount, List.length_append, List.length_cons, List.length_nil,
      if_neg (singleton_ne_empty c)]
    split <;> omega
  next h =>
    simp only [wrapStateCount, if_neg (push_ne_empty part c)]
    split <;> omega

/-- The hyphenation loop never decreases the line count. -/
theorem count_foldl_wrapChar_le (w2Fn : String → Int) (m : Int) :
    ∀ (cs : List Char) (st : List String × String),
      wrapStateCount st ≤ wrapStateCount (cs.foldl (wrapChar w2Fn m) st)
  | [], _ => le_refl _
  | c :: cs, st =>
    le_trans (count_wrapChar_le w2Fn m st c) (count_foldl_wrapChar_le w2Fn m cs _)

/-- Processing one more word never decreases the line count, for any width
oracle. -/
theorem count_wrapWord_le (wFn w2Fn : String → Int) (m : Int)
    (st : List String × String) (word : String) :
    wrapStateCount st ≤ wrapStateCount (wrapWord wFn w2Fn m st word) := by
  obtain ⟨lines, current⟩ := st
  by_cases hc : current = ""
  · subst hc
    simp only [wrapWord, eq_self_iff_true, if_true]
    split
    next hfit =>
      simp only [wrapStateCount, eq_self_iff_true, if_true]
      split <;> omega
    next hnofit =>
      split
      next hwide => exact count_foldl_wrapChar_le w2Fn m word.toList (lines, "")
      next hnarrow =>
        simp only [wrapStateCount, eq_self_iff_true, if_true]
        split <;> omega
  · simp only [wrapWord, hc, if_false]
    split
    next hfit =>
      simp only [wrapStateCount, if_neg hc, if_neg (append_space_ne_empty current word)]
      omega
    next hnofit =>
      split
      next hwide =>
        refine le_trans ?_ (count_foldl_wrapChar_le w2Fn m word.toList (lines ++ [current], ""))
        simp only [wrapStateCount, if_neg hc, eq_self_iff_true, if_true,
          List.length_append, List.length_cons, List.length_nil]
        omega
      next hnarrow =>
        simp only [wrapStateCount, if_neg hc, List.length_append, List.length_cons,
          List.length_nil]
        split <;> omega

/-- The word loop never decreases the line count. -/
theorem count_foldl_wrapWord_le (wFn w2Fn : String → Int) (m : Int) :
    ∀ (ws : List String) (st : List String × String),
      wrapStateCount st ≤ wrapStateCount (ws.foldl (wrapWord wFn w2Fn m) st)
  | [], _ => le_refl _
  | w :: ws, st =>
    le_trans (count_wrapWord_le wFn w2Fn m st w) (count_foldl_wrapWord_le wFn w2Fn m ws _)

/-- The length of `wrap_text` is the count of its final fold state. -/
theorem wrap_text_length_eq (wFn w2Fn : String → Int) (text : String) (m : Int)
    (hm : ¬ m < 10) :
    (wrap_text wFn w2Fn text m).length =
      wrapStateCount ((pySplit text).foldl (wrapWord wFn w2Fn m) ([], "")) := by
  simp only [wrap_text, if_neg hm]
  split
  next h => simp [wrapStateCount, h]
  next h => simp [wrapStateCount, h]

/-- Splitting distributes over a space-joined concatenation (accumulator
form). -/
theorem splitAux_append_space :
    ∀ (l cur r : List Char),
      splitAux cur (l ++ ' ' :: r) = splitAux cur l ++ splitAux [] r
  | [], cur, r => by
    have hsp : pyIsSpace ' ' = true := by decide
    by_cases hcur : cur = [] <;> simp [splitAux, hsp, hcur]
  | c :: l, cur, r => by
    by_cases hs : pyIsSpace c = true
    · by_cases hcur : cur = [] <;>
        simp [splitAux, hs, hcur, splitAux_append_space l]
    · simp [splitAux, hs, splitAux_append_space l]

/-- `str.split()` distributes over a space-joined concatenation. -/
theorem pySplit_append_space (s t : String) :
    pySplit (s ++ " " ++ t) = pySplit s ++ pySplit t := by
  unfold pySplit
  have hdata : (s ++ " " ++ t).toList = s.toList ++ ' ' :: t.toList := by
    show ((s ++ " ") ++ t).data = s.data ++ ' ' :: t.data
    rw [String.data_append, String.data_append]
    simp
  rw [hdata, splitAux_append_space, List.map_append]

/-- Appending a space-separated suffix never decreases the wrapped line
count, for any width oracles. -/
theorem wrap_text_mono (wFn w2Fn : String → Int) (m : Int) (text extra : String) :
    (wrap_text wFn w2Fn text m).length ≤
      (wrap_text wFn w2Fn (text ++ " " ++ extra) m).length := by
  by_cases hm : m < 10
  · simp [wrap_text, hm]
  · rw [wrap_text_length_eq wFn w2Fn text m hm,
      wrap_text_length_eq wFn w2Fn (text ++ " " ++ extra) m hm,
      pySplit_append_space, List.foldl_append]
    exact count_foldl_wrapWord_le wFn w2Fn m (pySplit extra) _

/-- C8 (amended). Provided the variant's fixed allowance does not exceed
`max_h`, `measure_node_content_height` is non-decreasing when the
description grows by a space-separated suffix (for arbitrary text-metric
oracles), and an empty or `None` description yields exactly the fixed
allowance clamped below by `min_h` — in particular exactly `min_h` when
the allowance does not exceed `min_h`. The hypothesis on `max_h` is
necessary because the empty-description result is not clamped by `max_h`
(see the counterexample). -/
theorem measure_height_monotone_amended (wFn w2Fn : String → Int) (card_w : Int)
    (has_icon is_header_style is_pipeline : Bool) (min_h max_h : Int)
    (hbase : baseAllowance has_icon is_header_style is_pipeline ≤ max_h) :
    (∀ desc extra : String,
      measure_node_content_height wFn w2Fn (some desc) card_w has_icon min_h max_h
          is_header_style is_pipeline ≤
        measure_node_content_height wFn w2Fn (some (desc ++ " " ++ extra)) card_w
          has_icon min_h max_h is_header_style is_pipeline) ∧
    (measure_node_content_height wFn w2Fn none card_w has_icon min_h max_h
        is_header_style is_pipeline =
      max min_h (baseAllowance has_icon is_header_style is_pipeline)) ∧
    (measure_node_content_height wFn w2Fn (some "") card_w has_icon min_h max_h
        is_header_style is_pipeline =
      max min_h (baseAllowance has_icon is_header_style is_pipeline)) ∧
    (baseAllowance has_icon is_header_style is_pipeline ≤ min_h →
      measure_node_content_height wFn w2Fn none card_w has_icon min_h max_h
          is_header_style is_pipeline = min_h) := by
  have hlh : (0 : Int) ≤ (if is_header_style then (14 : Int) else 16) := by
    split <;> norm_num
  refine ⟨?_, ?_, ?_, ?_⟩
  · intro desc extra
    have hne : pyFalsy (some (desc ++ " " ++ extra)) = false := by
      simp [pyFalsy, append_space_ne_empty desc extra]
    by_cases hd : desc = ""
    · subst hd
      simp only [measure_node_content_height, pyFalsy, hne]
      rw [if_pos (by simp [pyFalsy]), if_neg (by
        simp only [pyFalsy, decide_eq_true_eq]
        exact append_space_ne_empty "" extra)]
      apply max_le_max (le_refl min_h)
      apply le_min _ hbase
      have hnn : (0 : Int) ≤
          ((wrap_text wFn w2Fn ((some ("" ++ " " ++ extra)).getD "") (card_w - 24)).length : Int) *
              (if is_header_style then (14 : Int) else 16) + 6 := by
        have := mul_nonneg (Int.natCast_nonneg
          ((wrap_text wFn w2Fn ((some ("" ++ " " ++ extra)).getD "") (card_w - 24)).length)) hlh
        linarith
      linarith
    · have hdne : pyFalsy (some desc) = false := by simp [pyFalsy, hd]
      simp only [measure_node_content_height, hdne, hne, Bool.false_eq_true, if_false,
        Option.getD_some]
      apply max_le_max (le_refl min_h)
      apply min_le_min _ (le_refl max_h)
      have hwrap := wrap_text_mono wFn w2Fn (card_w - 24) desc extra
      have hcast : ((wrap_text wFn w2Fn desc (card_w - 24)).length : Int) ≤
          ((wrap_text wFn w2Fn (desc ++ " " ++ extra) (card_w - 24)).length : Int) :=
        Int.ofNat_le.mpr hwrap
      have := mul_le_mul_of_nonneg_right hcast hlh
      linarith
  · simp [measure_node_content_height, pyFalsy]
  · simp [measure_node_content_height, pyFalsy]
  · intro hmin
    simp [measure_node_content_height, pyFalsy, max_eq_left hmin]

/-- Witness for the amended measurement theorem with a concrete 7px-per-
character metric at the plain-card defaults. -/
theorem measure_height_monotone_witness :
    measure_node_content_height (fun s => 7 * (s.length : Int))
        (fun s => 7 * (s.length : Int)) (some "hi") 200 false 60 300 false false ≤
      measure_node_content_height (fun s => 7 * (s.length : Int))
        (fun s => 7 * (s.length : Int)) (some ("hi" ++ " " ++ "there")) 200 false 60 300
        false false ∧
    measure_node_content_height (fun s => 7 * (s.length : Int))
        (fun s => 7 * (s.length : Int)) none 200 false 60 300 false false =
      max 60 (baseAllowance false false false) := by
  have h := measure_height_monotone_amended (fun s => 7 * (s.length : Int))
    (fun s => 7 * (s.length : Int)) 200 false false false 60 300 (by decide)
  exact ⟨h.1 "hi" "there", h.2.1⟩

/-- C8 (counterexample). With `max_h = 50` below the plain-card fixed
allowance 56, growing the description from empty to `"hi"` makes the
measured height drop from 56 to 50: the function is not non-decreasing for
every fixed `min_h`/`max_h`, because the empty-description branch ignores
`max_h`. -/
theorem measure_height_not_monotone_counterexample :
    measure_node_content_height (fun s => 7 * (s.length : Int))
        (fun s => 7 * (s.length : Int)) (some "") 200 false 40 50 false false = 56 ∧
    measure_node_content_height (fun s => 7 * (s.length : Int))
        (fun s => 7 * (s.length : Int)) (some "hi") 200 false 40 50 false false = 50 ∧
    ¬ (56 : Int) ≤ 50 :=
  ⟨by decide, by decide, by decide⟩

end TIG
